/-
Verification of the mandate core of the Verification-Demo repository
(src/core/mandate.ts, src/agent/verifier/thirdParty.ts) against its
natural-language specification.

Shallow embedding notes:
- JSON documents are modelled by the inductive type Json; JavaScript objects
  are association lists of string keys.  The JCS canonicalizer (the npm
  canonicalize library) is modelled by canonicalizeJson: object keys are
  sorted recursively (sortJson) and the value is serialized with sorted keys,
  escaped strings and decimal integers (serJson).  A parser (parseValue) is
  used to prove the serialization injective.
- keccak256 composed with toUtf8Bytes is an external cryptographic hash; it
  is modelled as an injective digest (fixed-width lowercase hex dump of the
  code points, 0x-prefixed), the standard collision-freeness idealization.
- ECDSA signing and recovery (ethers signMessage / verifyMessage,
  signTypedData / verifyTypedData) are modelled symbolically: a signature
  carries its signer and the signed content, and recovery returns the signer
  exactly when the verified content matches what was signed, a garbage
  address otherwise.
- Methods that mutate the Mandate instance (setCore, sign, attachSig) are
  modelled as functions from the pre-state to a result paired with the
  post-state; a thrown JavaScript exception is an .error result and, since
  the source throws before assigning, the post-state equals the pre-state.
- ulid() and new Date() are ambient effects of the constructor; they are
  passed as explicit genId / now arguments.
-/

import Mathlib

/-- JSON-compatible values. JavaScript objects are field lists; the JCS
canonical form of an object is its key-sorted form (see sortJson). -/
inductive Json where
  | null
  | bool (b : Bool)
  | num (n : Int)
  | str (s : String)
  | arr (xs : List Json)
  | obj (fs : List (String × Json))
deriving Repr

/-- Code-point comparison of key strings, the order the JCS canonicalizer
sorts object keys by (UTF-16 code-unit order of the source, which agrees on
the ASCII keys that occur in mandate documents). -/
def charsLe : List Char → List Char → Bool
  | [], _ => true
  | a :: as, bs =>
    match bs with
    | [] => false
    | b :: bt =>
      if a.toNat < b.toNat then true
      else if b.toNat < a.toNat then false
      else charsLe as bt

def keyLe (a b : String) : Bool := charsLe a.data b.data

def insertFieldSorted (p : String × Json) : List (String × Json) → List (String × Json)
  | [] => [p]
  | q :: qs => if keyLe p.1 q.1 then p :: q :: qs else q :: insertFieldSorted p qs

def sortFields : List (String × Json) → List (String × Json)
  | [] => []
  | p :: ps => insertFieldSorted p (sortFields ps)

mutual

def sortJson : Json → Json
  | .null => .null
  | .bool b => .bool b
  | .num n => .num n
  | .str s => .str s
  | .arr xs => .arr (sortList xs)
  | .obj fs => .obj (sortFields (sortMembers fs))

def sortList : List Json → List Json
  | [] => []
  | x :: xs => sortJson x :: sortList xs

def sortMembers : List (String × Json) → List (String × Json)
  | [] => []
  | (k, v) :: fs => (k, sortJson v) :: sortMembers fs
end

def hexDigitChar (n : Nat) : Char := if n < 10 then Char.ofNat (48 + n) else Char.ofNat (87 + n)

def digitChar (n : Nat) : Char := Char.ofNat (48 + n)

def hexPairLower (n : Nat) : List Char := hexDigitChar (n / 16) :: (hexDigitChar (n % 16) :: [])

def escapeChar (c : Char) : List Char :=
  if c = '"' then ['\\', '"']
  else if c = '\\' then ['\\', '\\']
  else if c = '\x08' then ['\\', 'b']
  else if c = '\t' then ['\\', 't']
  else if c = '\n' then ['\\', 'n']
  else if c = '\x0c' then ['\\', 'f']
  else if c = '\r' then ['\\', 'r']
  else if c.toNat < 32 then '\\' :: ('u' :: ('0' :: ('0' :: hexPairLower c.toNat)))
  else [c]

def escapeList : List Char → List Char
  | [] => []
  | c :: cs => escapeChar c ++ escapeList cs

def natToDigits (n : Nat) : List Char :=
  if _h : n < 10 then [digitChar n]
  else natToDigits (n / 10) ++ [digitChar (n % 10)]
decreasing_by exact Nat.div_lt_self (by omega) (by omega)

def intToChars (n : Int) : List Char :=
  if n < 0 then '-' :: natToDigits n.natAbs else natToDigits n.natAbs

mutual

def serJson : Json → List Char
  | .null => 'n' :: ('u' :: ('l' :: ('l' :: [])))
  | .bool true => 't' :: ('r' :: ('u' :: ('e' :: [])))
  | .bool false => 'f' :: ('a' :: ('l' :: ('s' :: ('e' :: []))))
  | .num n => intToChars n
  | .str s => '"' :: (escapeList s.data ++ ['"'])
  | .arr xs => '[' :: (serItems xs ++ [']'])
  | .obj fs => '{' :: (serMembers fs ++ ['}'])

def serItems : List Json → List Char
  | [] => []
  | x :: xs => serJson x ++ serItemsRest xs

def serItemsRest : List Json → List Char
  | [] => []
  | x :: xs => ',' :: (serJson x ++ serItemsRest xs)

def serMembers : List (String × Json) → List Char
  | [] => []
  | (k, v) :: fs => '"' :: (escapeList k.data ++ '"' :: ':' :: serJson v) ++ serMembersRest fs

def serMembersRest : List (String × Json) → List Char
  | [] => []
  | (k, v) :: fs => ',' :: '"' :: (escapeList k.data ++ '"' :: ':' :: serJson v) ++ serMembersRest fs
end

def parseHexDigit (c : Char) : Option Nat :=
  if 48 ≤ c.toNat ∧ c.toNat ≤ 57 then some (c.toNat - 48)
  else if 97 ≤ c.toNat ∧ c.toNat ≤ 102 then some (c.toNat - 87)
  else none

def unescapeShort (e : Char) : Option Char :=
  if e = '"' then some '"'
  else if e = '\\' then some '\\'
  else if e = 'b' then some '\x08'
  else if e = 't' then some '\t'
  else if e = 'n' then some '\n'
  else if e = 'f' then some '\x0c'
  else if e = 'r' then some '\r'
  else none

def parseStringBody : List Char → Option (List Char × List Char)
  | [] => none
  | c :: rest =>
    if c = '"' then some ([], rest)
    else if c = '\\' then
      match rest with
      | [] => none
      | e :: rest₂ =>
        if e = 'u' then
          match rest₂ with
          | h₁ :: h₂ :: h₃ :: h₄ :: rest₃ =>
            match parseHexDigit h₁, parseHexDigit h₂, parseHexDigit h₃, parseHexDigit h₄ with
            | some a, some b, some c₂, some d =>
              match parseStringBody rest₃ with
              | some (s, r) => some (Char.ofNat (((a * 16 + b) * 16 + c₂) * 16 + d) :: s, r)
              | none => none
            | _, _, _, _ => none
          | _ => none
        else
          match unescapeShort e with
          | some ch =>
            match parseStringBody rest₂ with
            | some (s, r) => some (ch :: s, r)
            | none => none
          | none => none
    else
      match parseStringBody rest with
      | some (s, r) => some (c :: s, r)
      | none => none

def isDigitChar (c : Char) : Bool := 48 ≤ c.toNat && c.toNat ≤ 57

def parseDigits : List Char → Nat → Nat × List Char
  | [], acc => (acc, [])
  | c :: rest, acc =>
    if isDigitChar c then parseDigits rest (acc * 10 + (c.toNat - 48)) else (acc, c :: rest)

mutual

def parseValue : Nat → List Char → Option (Json × List Char)
  | 0, _ => none
  | fuel + 1, cs =>
    match cs with
    | [] => none
    | c :: rest =>
      if c = 'n' then
        match rest with
        | 'u' :: 'l' :: 'l' :: r => some (.null, r)
        | _ => none
      else if c = 't' then
        match rest with
        | 'r' :: 'u' :: 'e' :: r => some (.bool true, r)
        | _ => none
      else if c = 'f' then
        match rest with
        | 'a' :: 'l' :: 's' :: 'e' :: r => some (.bool false, r)
        | _ => none
      else if c = '"' then
        match parseStringBody rest with
        | some (s, r) => some (.str (String.mk s), r)
        | none => none
      else if c = '[' then
        match rest with
        | ']' :: r => some (.arr [], r)
        | _ =>
          match parseItems fuel rest with
          | some (xs, r) => some (.arr xs, r)
          | none => none
      else if c = '{' then
        match rest with
        | '}' :: r => some (.obj [], r)
        | _ =>
          match parseMembers fuel rest with
          | some (fs, r) => some (.obj fs, r)
          | none => none
      else if c = '-' then
        match rest with
        | d :: _ =>
          if isDigitChar d then
            let p := parseDigits rest 0
            some (.num (-(p.1 : Int)), p.2)
          else none
        | [] => none
      else if isDigitChar c then
        let p := parseDigits (c :: rest) 0
        some (.num (p.1 : Int), p.2)
      else none

def parseItems : Nat → List Char → Option (List Json × List Char)
  | 0, _ => none
  | fuel + 1, cs =>
    match parseValue fuel cs with
    | some (v, r) =>
      match r with
      | ',' :: r₂ =>
        match parseItems fuel r₂ with
        | some (vs, r₃) => some (v :: vs, r₃)
        | none => none
      | ']' :: r₂ => some ([v], r₂)
      | _ => none
    | none => none

def parseMembers : Nat → List Char → Option (List (String × Json) × List Char)
  | 0, _ => none
  | fuel + 1, cs =>
    match cs with
    | '"' :: cs₂ =>
      match parseStringBody cs₂ with
      | some (k, r) =>
        match r with
        | ':' :: r₂ =>
          match parseValue fuel r₂ with
          | some (v, r₃) =>
            match r₃ with
            | ',' :: r₄ =>
              match parseMembers fuel r₄ with
              | some (fs, r₅) => some ((String.mk k, v) :: fs, r₅)
              | none => none
            | '}' :: r₄ => some ([(String.mk k, v)], r₄)
            | _ => none
          | none => none
        | _ => none
      | none => none
    | _ => none
end

mutual

def jweight : Json → Nat
  | .arr xs => 1 + jweightItems xs
  | .obj fs => 1 + jweightMembers fs
  | _ => 1

def jweightItems : List Json → Nat
  | [] => 0
  | x :: xs => 1 + jweight x + jweightItems xs

def jweightMembers : List (String × Json) → Nat
  | [] => 0
  | (_, v) :: fs => 1 + jweight v + jweightMembers fs
end

def notDigitStart : List Char → Prop
  | [] => True
  | c :: _ => isDigitChar c = false

def canonicalizeJson (v : Json) : String := String.mk (serJson (sortJson v))

def hex6 (c : Char) : List Char :=
  [hexDigitChar (c.toNat / 16 ^ 5 % 16), hexDigitChar (c.toNat / 16 ^ 4 % 16),
   hexDigitChar (c.toNat / 16 ^ 3 % 16), hexDigitChar (c.toNat / 16 ^ 2 % 16),
   hexDigitChar (c.toNat / 16 % 16), hexDigitChar (c.toNat % 16)]

def hexDump : List Char → List Char
  | [] => []
  | c :: cs => hex6 c ++ hexDump cs

/-- Model of keccak256(toUtf8Bytes s) from ethers: an injective digest
(0x-prefixed fixed-width lowercase hex of the code points).  The real hash
is a fixed 32-byte digest; collision-freeness is idealized as injectivity. -/
def keccak256 (s : String) : String := String.mk ('0' :: 'x' :: hexDump s.data)

/-- Model of JavaScript String.prototype.toLowerCase (adequate for the
ASCII hex strings and addresses it is applied to). -/
def toLowerStr (s : String) : String := String.mk (s.data.map Char.toLower)

inductive SigAlg where
  | eip191
  | eip712
deriving DecidableEq

inductive Role where
  | client
  | server
deriving DecidableEq

structure TypedDataDomain where
  name : Option String := none
  chainId : Option Int := none
deriving DecidableEq

structure HDNodeWallet where
  address : String
deriving DecidableEq

inductive SigBytes where
  | eip191Sig (signer : String) (message : String)
  | eip712Sig (signer : String) (domain : TypedDataDomain) (mandateHash : String)
deriving DecidableEq

/-- Stand-in for the unpredictable address ECDSA recovery yields on a
message that differs from the signed one. -/
def garbageAddress : String := r"0x0000000000000000000000000000000000000000"

/-- Model of wallet.signMessage over the UTF-8 bytes of msg (EIP-191). -/
def signMessage (w : HDNodeWallet) (msg : String) : SigBytes := .eip191Sig w.address msg

def signTypedDataMandate (w : HDNodeWallet) (domain : TypedDataDomain) (mh : String) : SigBytes :=
  .eip712Sig w.address domain mh

/-- Model of ethers verifyMessage: recovers the signer iff the message is
the one that was signed. -/
def verifyMessage (msg : String) (sig : SigBytes) : String :=
  match sig with
  | .eip191Sig a m => if m = msg then a else garbageAddress
  | .eip712Sig _ _ _ => garbageAddress

/-- Model of ethers verifyTypedData for the single-field Mandate type used
by the source: recovery succeeds iff domain and mandateHash match. -/
def verifyTypedDataMandate (domain : TypedDataDomain) (mh : String) (sig : SigBytes) : String :=
  match sig with
  | .eip712Sig a d h => if d = domain ∧ h = mh then a else garbageAddress
  | .eip191Sig _ _ => garbageAddress

/-- JavaScript String.prototype.split with a single-character separator. -/
def splitChars (sep : Char) : List Char → List (List Char)
  | [] => [[]]
  | c :: cs =>
    let rest := splitChars sep cs
    if c = sep then [] :: rest
    else
      match rest with
      | [] => [[c]]
      | r :: rs => (c :: r) :: rs

def jsSplit (s : String) (sep : Char) : List String := (splitChars sep s.data).map String.mk

structure Signature where
  alg : SigAlg
  mandateHash : String
  signature : SigBytes
deriving DecidableEq

structure MandateSignatures where
  clientSig : Option Signature := none
  serverSig : Option Signature := none
deriving DecidableEq

/-- The runtime document this.m of the Mandate class.  version is optional
at runtime (an undefined field is dropped by JSON round-trips), signatures
is present only once a signature has been attached. -/
structure Mandate where
  mandateId : String
  version : Option String := none
  client : String
  server : String
  createdAt : String
  deadline : String
  intent : String
  core : Json
  signatures : Option MandateSignatures := none

structure MandateInit where
  mandateId : Option String := none
  version : Option String := none
  client : Option String := none
  server : Option String := none
  createdAt : Option String := none
  deadline : Option String := none
  intent : Option String := none
  core : Option Json := none
  signatures : Option MandateSignatures := none

inductive MandateError where
  | constructionError (msg : String)
  | unknownPrimitive (kind : String)
  | duplicateRegistration (kind : String)
  | payloadValidation (msg : String)
  | coreMissing
  | coreKindMismatch (expected : String)
  | noSignatures
  | sigMissing (role : Role)
  | hashMismatch (role : Role)
  | domainRequired
  | signatureInvalid (role : Role) (expected : String) (got : String)
  | typeError
  | clientMismatch (expected : String) (got : String)
  | serverMismatch (expected : String) (got : String)
  | deadlinePassed
  | unexpectedCoreShape
  | badAmountIn
deriving DecidableEq

def strFalsy : Option String → Bool
  | none => true
  | some s => s.isEmpty

def orEmpty : Option String → String
  | none => String.mk []
  | some s => s

/-- The Mandate constructor.  JavaScript truthiness of the guards is
modelled by strFalsy (missing or empty string); genId models ulid() and
now models new Date().toISOString(). -/
def Mandate.create (init : MandateInit) (genId : String) (now : String) :
    Except MandateError Mandate :=
  if strFalsy init.client || strFalsy init.server then
    .error (.constructionError (r"client and server (CAIP-10) are required"))
  else if strFalsy init.deadline then
    .error (.constructionError (r"deadline (ISO 8601) is required"))
  else
    .ok {
      mandateId := init.mandateId.getD genId
      version := init.version
      client := orEmpty init.client
      server := orEmpty init.server
      createdAt := init.createdAt.getD now
      deadline := orEmpty init.deadline
      intent := init.intent.getD (String.mk [])
      core := init.core.getD (.obj [])
      signatures := init.signatures }

/-- deepClone is JSON.parse(JSON.stringify(x)); on the pure value model
(Option fields standing for present-or-absent keys) it is the identity. -/
def deepClone (m : Mandate) : Mandate := m

def Mandate.toJSON (m : Mandate) : Mandate := deepClone m

def versionField : Option String → List (String × Json)
  | none => []
  | some v => [(r"version", Json.str v)]

/-- The document as a JSON object, without the signatures key: the source
deep-clones this.m and deletes signatures before canonicalizing, so the
builder omits that key by construction.  A version key is present only when
the field is. -/
def mandateDocJson (m : Mandate) : Json :=
  Json.obj ([(r"mandateId", Json.str m.mandateId)] ++ versionField m.version ++
    [(r"client", Json.str m.client), (r"server", Json.str m.server),
     (r"createdAt", Json.str m.createdAt), (r"deadline", Json.str m.deadline),
     (r"intent", Json.str m.intent), (r"core", m.core)])

/-- canonicalizeForHash from mandate.ts: canonicalize(doc minus signatures). -/
def canonicalizeForHash (m : Mandate) : String := canonicalizeJson (mandateDocJson m)

def computeMandateHash (m : Mandate) : String := keccak256 (canonicalizeForHash m)

def Mandate.toCanonicalString (m : Mandate) : String := canonicalizeForHash m

def Mandate.mandateHash (m : Mandate) : String := computeMandateHash m

structure PrimitiveValidator where
  parse : Option Json → Except String Json

structure PrimitiveDef where
  kind : String
  validator : PrimitiveValidator
  describe : Option String := none

abbrev Registry := List (String × PrimitiveDef)

def Registry.hasKind (reg : Registry) (kind : String) : Bool := (List.lookup kind reg).isSome

def Mandate.registerPrimitive (reg : Registry) (d : PrimitiveDef) :
    Except MandateError Unit × Registry :=
  if Registry.hasKind reg d.kind then (.error (.duplicateRegistration d.kind), reg)
  else (.ok (), reg ++ [(d.kind, d)])

def Mandate.getPrimitive (reg : Registry) (kind : String) : Except MandateError PrimitiveDef :=
  match List.lookup kind reg with
  | some d => .ok d
  | none => .error (.unknownPrimitive kind)

def Mandate.hasPrimitive (reg : Registry) (kind : String) : Bool := Registry.hasKind reg kind

def jsTruthy : Json → Bool
  | .null => false
  | .bool b => b
  | .num n => decide (n ≠ 0)
  | .str s => !s.isEmpty
  | .arr _ => true
  | .obj _ => true

def jsTypeof : Json → String
  | .null => r"object"
  | .bool _ => r"boolean"
  | .num _ => r"number"
  | .str _ => r"string"
  | .arr _ => r"object"
  | .obj _ => r"object"

def jsTypeofOpt : Option Json → String
  | none => r"undefined"
  | some v => jsTypeof v

def jsGet : Json → String → Option Json
  | .obj fs, k => List.lookup k fs
  | _, _ => none

def kindIs (core : Json) (kind : String) : Bool :=
  match jsGet core (r"kind") with
  | some (.str s) => s == kind
  | _ => false

def Mandate.setCore (reg : Registry) (m : Mandate) (kind : String) (payload : Option Json) :
    Except MandateError Unit × Mandate :=
  match Mandate.getPrimitive reg kind with
  | .error e => (.error e, m)
  | .ok d =>
    match d.validator.parse payload with
    | .error msg => (.error (.payloadValidation msg), m)
    | .ok typed =>
      (.ok (), { m with core := Json.obj [(r"kind", Json.str kind), (r"payload", typed)] })

def Mandate.is (m : Mandate) (kind : String) : Bool :=
  jsTruthy m.core && kindIs m.core kind

def Mandate.coreAs (m : Mandate) (schema : PrimitiveValidator) (expectedKind : Option String) :
    Except MandateError Json :=
  if !jsTruthy m.core || jsTypeof m.core != r"object" then .error .coreMissing
  else
    match expectedKind with
    | some ek =>
      if kindIs m.core ek then
        match schema.parse (jsGet m.core (r"payload")) with
        | .ok t => .ok t
        | .error msg => .error (.payloadValidation msg)
      else .error (.coreKindMismatch ek)
    | none =>
      match schema.parse (jsGet m.core (r"payload")) with
      | .ok t => .ok t
      | .error msg => .error (.payloadValidation msg)

def Mandate.coreAsKind (reg : Registry) (m : Mandate) (kind : String) :
    Except MandateError Json :=
  if !jsTruthy m.core || !kindIs m.core kind then .error (.coreKindMismatch kind)
  else
    match Mandate.getPrimitive reg kind with
    | .error e => .error e
    | .ok d =>
      match d.validator.parse (jsGet m.core (r"payload")) with
      | .ok t => .ok t
      | .error msg => .error (.payloadValidation msg)

def Mandate.tryCoreAs (m : Mandate) (schema : PrimitiveValidator) (expectedKind : Option String) :
    Option Json :=
  match Mandate.coreAs m schema expectedKind with
  | .ok t => some t
  | .error _ => none

def Mandate.attachSig (m : Mandate) (role : Role) (sig : Signature) : Mandate :=
  let sigs := m.signatures.getD {}
  match role with
  | .client => { m with signatures := some { sigs with clientSig := some sig } }
  | .server => { m with signatures := some { sigs with serverSig := some sig } }

def Mandate.sign (m : Mandate) (role : Role) (wallet : HDNodeWallet) (alg : SigAlg)
    (domain : Option TypedDataDomain) : Except MandateError Signature × Mandate :=
  let jcs := Mandate.toCanonicalString m
  let mh := keccak256 jcs
  match alg with
  | .eip191 =>
    let sig : Signature := { alg := .eip191, mandateHash := mh, signature := signMessage wallet jcs }
    (.ok sig, Mandate.attachSig m role sig)
  | .eip712 =>
    match domain with
    | none => (.error .domainRequired, m)
    | some d =>
      match d.chainId with
      | none => (.error .domainRequired, m)
      | some _ =>
        let sig : Signature := { alg := .eip712, mandateHash := mh
                                 signature := signTypedDataMandate wallet d mh }
        (.ok sig, Mandate.attachSig m role sig)

structure VerifyResult where
  recovered : String
  recomputedHash : String
  alg : SigAlg
deriving DecidableEq

def roleSig (sigs : MandateSignatures) : Role → Option Signature
  | .client => sigs.clientSig
  | .server => sigs.serverSig

def roleCaip (m : Mandate) : Role → String
  | .client => m.client
  | .server => m.server

def Mandate.verifyRole (m : Mandate) (role : Role) (domain : Option TypedDataDomain) :
    Except MandateError VerifyResult :=
  match m.signatures with
  | none => .error .noSignatures
  | some sigs =>
    match roleSig sigs role with
    | none => .error (.sigMissing role)
    | some sigObj =>
      let recomputed := Mandate.mandateHash m
      if toLowerStr sigObj.mandateHash ≠ toLowerStr recomputed then .error (.hashMismatch role)
      else
        let recoveredE : Except MandateError String :=
          match sigObj.alg with
          | .eip191 => .ok (verifyMessage (Mandate.toCanonicalString m) sigObj.signature)
          | .eip712 =>
            match domain with
            | none => .error .domainRequired
            | some d =>
              match d.chainId with
              | none => .error .domainRequired
              | some _ => .ok (verifyTypedDataMandate d sigObj.mandateHash sigObj.signature)
        match recoveredE with
        | .error e => .error e
        | .ok recovered =>
          match (jsSplit (roleCaip m role) ':').get? 2 with
          | none => .error .typeError
          | some part =>
            let expected := toLowerStr part
            if toLowerStr recovered ≠ expected then
              .error (.signatureInvalid role expected recovered)
            else .ok { recovered := recovered, recomputedHash := recomputed, alg := sigObj.alg }

structure VerifyAllResult where
  client : VerifyResult
  server : VerifyResult
deriving DecidableEq

def Mandate.verifyAll (m : Mandate) (dc ds : Option TypedDataDomain) :
    Except MandateError VerifyAllResult :=
  match Mandate.verifyRole m .client dc with
  | .error e => .error e
  | .ok rc =>
    match Mandate.verifyRole m .server ds with
    | .error e => .error e
    | .ok rs => .ok { client := rc, server := rs }

def jsonToInit (m : Mandate) : MandateInit :=
  { mandateId := some m.mandateId, version := m.version, client := some m.client,
    server := some m.server, createdAt := some m.createdAt, deadline := some m.deadline,
    intent := some m.intent, core := some m.core, signatures := m.signatures }

def Mandate.fromObject (obj : Mandate) (genId : String) (now : String) :
    Except MandateError Mandate :=
  Mandate.create (jsonToInit obj) genId now

def isLeapYear (y : Nat) : Bool := (y % 4 == 0 && y % 100 != 0) || y % 400 == 0

def daysInMonth (y m : Nat) : Nat :=
  if m == 2 then (if isLeapYear y then 29 else 28)
  else if m == 4 || m == 6 || m == 9 || m == 11 then 30
  else 31

def daysSinceEpoch (y m d : Nat) : Nat :=
  ((List.range (y - 1970)).foldl (fun acc i => acc + (if isLeapYear (1970 + i) then 366 else 365)) 0) +
  ((List.range (m - 1)).foldl (fun acc i => acc + daysInMonth y (i + 1)) 0) +
  (d - 1)

/-- Model of new Date(s).getTime() for ISO-8601 UTC strings (milliseconds
since the epoch; 0 for strings the simple parser does not recognize). -/
def dateGetTime (s : String) : Int :=
  match s.splitOn (r"T") with
  | [datePart, timePart] =>
    match datePart.splitOn (r"-") with
    | [ys, ms, ds] =>
      match ys.toNat?, ms.toNat?, ds.toNat? with
      | some y, some mo, some d =>
        let timeCore := (timePart.splitOn (r"Z")).headD (String.mk [])
        match timeCore.splitOn (r":") with
        | [hs, mins, secs] =>
          let secParts := secs.splitOn (r".")
          let wholeSec := (secParts.headD (String.mk [])).toNat?.getD 0
          let ms3 := ((secParts.getD 1 (String.mk ['0'])).toNat?.getD 0)
          match hs.toNat?, mins.toNat? with
          | some hh, some mm =>
            ((daysSinceEpoch y mo d) * 86400000 + hh * 3600000 + mm * 60000 +
              wholeSec * 1000 + ms3 : Nat)
          | _, _ => 0
        | _ => 0
      | _, _, _ => 0
    | _ => 0
  | _ => 0

/-- Modelled from the spec: addrFromCaip10 is imported by thirdParty.ts
from the core mandate module, whose export is not in the repository
snapshot; the spec says to derive the plain address from the
chain-qualified identifier namespace:chainId:address, i.e. take the third
colon-separated component (the same access verifyRole performs inline). -/
def addrFromCaip10 (caip : String) : String :=
  ((jsSplit caip ':').get? 2).getD (String.mk [])

def isSwapCore (x : Json) : Bool :=
  jsTruthy x && kindIs x (r"swap@1") &&
    (match jsGet x (r"payload") with
     | some p => jsTruthy p && (jsTypeofOpt (jsGet p (r"amountIn")) == r"string")
     | none => false)

structure VerifyOptions where
  requireClient : Option String := none
  requireServer : Option String := none
  now : Option Int := none
  eip712ClientDomain : Option TypedDataDomain := none
  eip712ServerDomain : Option TypedDataDomain := none
  primitive : Option String := none

structure ThirdPartyResult where
  partyClient : String
  partyServer : String
  signatures : VerifyAllResult
  mandateHash : String
  core : Json

/-- verifyMandateAsThirdParty from thirdParty.ts.  genId and nowIso feed
fromObject (unused on complete documents); sysNow models the ambient
new Date() default for opts.now.  The identity checks are guarded by
JavaScript truthiness of the option (opts.requireClient && ...), so a
required address that is absent or the empty string skips the check. -/
def verifyMandateAsThirdParty (mandateJson : Mandate) (opts : VerifyOptions)
    (genId : String) (nowIso : String) (sysNow : Int) :
    Except MandateError ThirdPartyResult :=
  match Mandate.fromObject mandateJson genId nowIso with
  | .error e => .error e
  | .ok m =>
    match Mandate.verifyAll m opts.eip712ClientDomain opts.eip712ServerDomain with
    | .error e => .error e
    | .ok sigs =>
      let j := Mandate.toJSON m
      let clientAddr := toLowerStr (addrFromCaip10 j.client)
      let serverAddr := toLowerStr (addrFromCaip10 j.server)
      let clientCheck : Except MandateError Unit :=
        match opts.requireClient with
        | some req =>
          if req.isEmpty = false ∧ clientAddr ≠ toLowerStr req then
            .error (.clientMismatch req clientAddr)
          else .ok ()
        | none => .ok ()
      match clientCheck with
      | .error e => .error e
      | .ok _ =>
        let serverCheck : Except MandateError Unit :=
          match opts.requireServer with
          | some req =>
            if req.isEmpty = false ∧ serverAddr ≠ toLowerStr req then
              .error (.serverMismatch req serverAddr)
            else .ok ()
          | none => .ok ()
        match serverCheck with
        | .error e => .error e
        | .ok _ =>
          let nowMs := opts.now.getD sysNow
          if nowMs > dateGetTime j.deadline then .error .deadlinePassed
          else
            let primCheck : Except MandateError Unit :=
              if (match opts.primitive with | some p => p == r"swap@1" | none => false) then
                if !isSwapCore j.core then .error .unexpectedCoreShape
                else if (match jsGet j.core (r"payload") with
                         | some p => (match jsGet p (r"amountIn") with
                                      | some (.str a) => a == r"0"
                                      | _ => false)
                         | none => false) then .error .badAmountIn
                else .ok ()
              else .ok ()
            match primCheck with
            | .error e => .error e
            | .ok _ =>
              .ok { partyClient := clientAddr
                    partyServer := serverAddr
                    signatures := sigs
                    mandateHash := Mandate.mandateHash m
                    core := j.core }

/-- The non-signature portion of a mandate: the document the canonical
hash is computed over. -/
def stripSig (m : Mandate) : Mandate := { m with signatures := none }

def mW1 : Mandate :=
  { mandateId := r"01H", version := none, client := r"eip155:1:0xAAA",
    server := r"eip155:1:0xBBB", createdAt := r"2024-01-01T00:00:00Z",
    deadline := r"2024-01-02T00:00:00Z", intent := r"swap a for b", core := Json.obj [] }

def mW2 : Mandate :=
  { mandateId := r"01H", version := none, client := r"eip155:1:0xAAA",
    server := r"eip155:1:0xBBB", createdAt := r"2024-01-01T00:00:00Z",
    deadline := r"2024-01-02T00:00:00Z", intent := r"changed intent", core := Json.obj [] }

def otherRole : Role → Role
  | .client => .server
  | .server => .client

def wClient : HDNodeWallet := { address := r"0xAAA" }

def wServer : HDNodeWallet := { address := r"0xBBB" }

def mBase : Mandate :=
  { mandateId := r"01HZX"
    version := some (r"1.0.0")
    client := r"eip155:1:0xAAA"
    server := r"eip155:1:0xBBB"
    createdAt := r"2024-01-01T00:00:00Z"
    deadline := r"2099-01-01T00:00:00Z"
    intent := r"swap usdc for eth"
    core := Json.obj [] }

def sigClient : Signature :=
  { alg := .eip191
    mandateHash := Mandate.mandateHash mBase
    signature := signMessage wClient (Mandate.toCanonicalString mBase) }

def m1 : Mandate := Mandate.attachSig mBase .client sigClient

def sigServer : Signature :=
  { alg := .eip191
    mandateHash := Mandate.mandateHash m1
    signature := signMessage wServer (Mandate.toCanonicalString m1) }

def m2 : Mandate := Mandate.attachSig m1 .server sigServer

def sigClient2 : Signature :=
  { alg := .eip191
    mandateHash := Mandate.mandateHash m1
    signature := signMessage wServer (Mandate.toCanonicalString m1) }

def valReq : PrimitiveValidator :=
  { parse := fun p =>
      match p with
      | some j => .ok j
      | none => .error (r"missing payload") }

def swapDef : PrimitiveDef := { kind := r"swap@1", validator := valReq }

def swapDef2 : PrimitiveDef := { kind := r"swap@1", validator := valReq, describe := some (r"dup") }

def optsReqClient : VerifyOptions := { requireClient := some (r"0xBAD") }

theorem sortfix (a b c d e f g h : Json) :
    sortFields [(r"mandateId", a), (r"version", b), (r"client", c), (r"server", d),
      (r"createdAt", e), (r"deadline", f), (r"intent", g), (r"core", h)] =
    [(r"client", c), (r"core", h), (r"createdAt", e), (r"deadline", f),
      (r"intent", g), (r"mandateId", a), (r"server", d), (r"version", b)] := by
  rfl

theorem digitChar_toNat (n : Nat) (h : n < 10) : (digitChar n).toNat = 48 + n := by
  interval_cases n <;> decide

theorem isDigitChar_digitChar (n : Nat) (h : n < 10) : isDigitChar (digitChar n) = true := by
  interval_cases n <;> decide

theorem natToDigits_ne_nil (n : Nat) : natToDigits n ≠ [] := by
  rw [natToDigits]
  split
  · simp
  · simp

theorem natToDigits_all_digits (n : Nat) : ∀ c ∈ natToDigits n, isDigitChar c = true := by
  induction n using Nat.strong_induction_on with
  | _ n ih =>
    rw [natToDigits]
    split
    · intro c hc
      simp at hc
      subst hc
      exact isDigitChar_digitChar n (by omega)
    · intro c hc
      rename_i h
      rw [List.mem_append] at hc
      rcases hc with hc | hc
      · exact ih (n / 10) (Nat.div_lt_self (by omega) (by omega)) c hc
      · simp at hc
        subst hc
        exact isDigitChar_digitChar (n % 10) (Nat.mod_lt _ (by omega))

theorem parseDigits_of_all (ds : List Char) :
    ∀ acc r, (∀ c ∈ ds, isDigitChar c = true) → notDigitStart r →
      parseDigits (ds ++ r) acc = (ds.foldl (fun a c => a * 10 + (c.toNat - 48)) acc, r) := by
  induction ds with
  | nil =>
    intro acc r _ hr
    cases r with
    | nil => simp [parseDigits]
    | cons c cs =>
      simp only [notDigitStart] at hr
      simp [parseDigits, hr]
  | cons c cs ih =>
    intro acc r hall hr
    have hc : isDigitChar c = true := hall c (by simp)
    simp only [List.cons_append, parseDigits, hc, if_pos]
    exact ih _ r (fun x hx => hall x (by simp [hx])) hr

theorem natToDigits_foldl (n : Nat) :
    ∀ acc, (natToDigits n).foldl (fun a c => a * 10 + (c.toNat - 48)) acc =
      acc * 10 ^ (natToDigits n).length + n := by
  induction n using Nat.strong_induction_on with
  | _ n ih =>
    intro acc
    rw [natToDigits]
    split
    · rename_i h
      simp [List.foldl, digitChar_toNat n h]
      all_goals omega
    · rename_i h
      rw [List.foldl_append, List.length_append]
      rw [ih (n / 10) (Nat.div_lt_self (by omega) (by omega)) acc]
      simp [List.foldl, digitChar_toNat (n % 10) (Nat.mod_lt _ (by omega))]
      rw [pow_succ]
      have h3 : 10 * (n / 10) + n % 10 = n := Nat.div_add_mod n 10
      ring_nf
      all_goals omega

theorem parseDigits_natToDigits (n : Nat) (r : List Char) (hr : notDigitStart r) :
    parseDigits (natToDigits n ++ r) 0 = (n, r) := by
  rw [parseDigits_of_all _ 0 r (natToDigits_all_digits n) hr, natToDigits_foldl n 0]
  simp

theorem parseHexDigit_hexDigitChar (n : Nat) (h : n < 16) :
    parseHexDigit (hexDigitChar n) = some n := by
  interval_cases n <;> decide

theorem parseStringBody_escape (cs : List Char) :
    ∀ r, parseStringBody (escapeList cs ++ '"' :: r) = some (cs, r) := by
  induction cs with
  | nil =>
    intro r
    simp only [escapeList, List.nil_append]
    rw [parseStringBody.eq_def]
    simp
  | cons c cs ih =>
    intro r
    by_cases h1 : c = '"'
    · subst h1
      simp only [escapeList]
      simp [escapeChar]
      rw [parseStringBody.eq_def]
      simp [unescapeShort, ih r]
    · by_cases h2 : c = '\\'
      · subst h2
        simp only [escapeList]
        simp [escapeChar]
        rw [parseStringBody.eq_def]
        simp [unescapeShort, ih r]
      · by_cases h3 : c = '\x08'
        · subst h3
          simp only [escapeList]
          simp [escapeChar]
          rw [parseStringBody.eq_def]
          simp [unescapeShort, ih r]
        · by_cases h4 : c = '\t'
          · subst h4
            simp only [escapeList]
            simp [escapeChar]
            rw [parseStringBody.eq_def]
            simp [unescapeShort, ih r]
          · by_cases h5 : c = '\n'
            · subst h5
              simp only [escapeList]
              simp [escapeChar]
              rw [parseStringBody.eq_def]
              simp [unescapeShort, ih r]
            · by_cases h6 : c = '\x0c'
              · subst h6
                simp only [escapeList]
                simp [escapeChar]
                rw [parseStringBody.eq_def]
                simp [unescapeShort, ih r]
              · by_cases h7 : c = '\r'
                · subst h7
                  simp only [escapeList]
                  simp [escapeChar]
                  rw [parseStringBody.eq_def]
                  simp [unescapeShort, ih r]
                · by_cases h8 : c.toNat < 32
                  · have hd1 : c.toNat / 16 < 16 := by omega
                    have hd2 : c.toNat % 16 < 16 := by omega
                    have h0 : parseHexDigit '0' = some 0 := by decide
                    have he : Char.ofNat (((0 * 16 + 0) * 16 + c.toNat / 16) * 16 + c.toNat % 16) = c := by
                      have hx : ((0 * 16 + 0) * 16 + c.toNat / 16) * 16 + c.toNat % 16 = c.toNat := by
                        omega
                      rw [hx, Char.ofNat_toNat]
                    simp only [escapeList, escapeChar, hexPairLower, h1, h2, h3, h4, h5, h6, h7,
                      h8, if_false, if_true, List.cons_append, List.append_assoc, List.nil_append]
                    rw [parseStringBody.eq_def]
                    simp [parseHexDigit_hexDigitChar _ hd1, parseHexDigit_hexDigitChar _ hd2,
                      h0, ih r, he]
                    have hx2 : c.toNat / 16 * 16 + c.toNat % 16 = c.toNat := by omega
                    rw [hx2, Char.ofNat_toNat]
                  · simp only [escapeList, escapeChar, h1, h2, h3, h4, h5, h6, h7, h8,
                      if_false, List.cons_append, List.append_assoc, List.nil_append]
                    rw [parseStringBody.eq_def]
                    simp [h1, h2, ih r]

theorem jweight_pos (v : Json) : 1 ≤ jweight v := by
  cases v <;> simp [jweight]

theorem natToDigits_cons (m : Nat) :
    ∃ d ds, natToDigits m = d :: ds ∧ isDigitChar d = true := by
  cases hds : natToDigits m with
  | nil => exact absurd hds (natToDigits_ne_nil m)
  | cons d ds =>
    exact ⟨d, ds, rfl, natToDigits_all_digits m d (by rw [hds]; simp)⟩

theorem digit_ne_lits (c : Char) (h : isDigitChar c = true) :
    ∀ x, x ∈ [']', '}', 'n', 't', 'f', '"', '[', '{', '-'] → c ≠ x := by
  intro x hx he
  subst he
  simp only [List.mem_cons, List.not_mem_nil, or_false] at hx
  rcases hx with rfl | rfl | rfl | rfl | rfl | rfl | rfl | rfl | rfl <;>
    exact absurd h (by decide)

theorem serItemsRest_cons (y : Json) (ys : List Json) :
    serItemsRest (y :: ys) = ',' :: serItems (y :: ys) := by
  simp [serItemsRest, serItems]

theorem serMembersRest_cons (m : String × Json) (ms : List (String × Json)) :
    serMembersRest (m :: ms) = ',' :: serMembers (m :: ms) := by
  cases m with
  | mk k v => simp [serMembersRest, serMembers]

theorem serJson_cons (v : Json) : ∃ c cs, serJson v = c :: cs ∧ c ≠ ']' ∧ c ≠ '}' := by
  have hok : ∀ c : Char, c ∈ ['n', 't', 'f', '"', '[', '{', '-'] → c ≠ ']' ∧ c ≠ '}' := by
    decide
  cases v with
  | null => exact ⟨'n', _, rfl, hok 'n' (by decide)⟩
  | bool b =>
    cases b with
    | true => exact ⟨'t', _, rfl, hok 't' (by decide)⟩
    | false => exact ⟨'f', _, rfl, hok 'f' (by decide)⟩
  | num n =>
    rcases Int.lt_or_le n 0 with hn | hn
    · refine ⟨'-', natToDigits n.natAbs, ?_, hok '-' (by decide)⟩
      simp [serJson, intToChars, hn]
    · obtain ⟨d, ds, hds, hdig⟩ := natToDigits_cons n.natAbs
      refine ⟨d, ds, ?_, digit_ne_lits d hdig ']' (by decide),
        digit_ne_lits d hdig '}' (by decide)⟩
      simp [serJson, intToChars, hds, Int.not_lt.mpr hn]
  | str s => exact ⟨'"', _, rfl, hok '"' (by decide)⟩
  | arr xs => exact ⟨'[', _, rfl, hok '[' (by decide)⟩
  | obj fs => exact ⟨'{', _, rfl, hok '{' (by decide)⟩

theorem parseValue_null (fuel : Nat) (r : List Char) :
    parseValue (fuel + 1) ('n' :: 'u' :: 'l' :: 'l' :: r) = some (.null, r) := by
  simp [parseValue]

theorem parseValue_true (fuel : Nat) (r : List Char) :
    parseValue (fuel + 1) ('t' :: 'r' :: 'u' :: 'e' :: r) = some (.bool true, r) := by
  simp [parseValue]

theorem parseValue_false (fuel : Nat) (r : List Char) :
    parseValue (fuel + 1) ('f' :: 'a' :: 'l' :: 's' :: 'e' :: r) = some (.bool false, r) := by
  simp [parseValue]

theorem parseValue_str (fuel : Nat) (cs s r : List Char)
    (h : parseStringBody cs = some (s, r)) :
    parseValue (fuel + 1) ('"' :: cs) = some (.str (String.mk s), r) := by
  simp [parseValue, h]

theorem parseValue_digit (fuel : Nat) (c : Char) (cs : List Char)
    (h : isDigitChar c = true) :
    parseValue (fuel + 1) (c :: cs) =
      some (.num ((parseDigits (c :: cs) 0).1 : Int), (parseDigits (c :: cs) 0).2) := by
  have hq := digit_ne_lits c h
  simp [parseValue, hq 'n' (by decide), hq 't' (by decide), hq 'f' (by decide),
    hq '"' (by decide), hq '[' (by decide), hq '{' (by decide), hq '-' (by decide), h]

theorem parseValue_neg (fuel : Nat) (d : Char) (rest : List Char)
    (h : isDigitChar d = true) :
    parseValue (fuel + 1) ('-' :: d :: rest) =
      some (.num (-((parseDigits (d :: rest) 0).1 : Int)), (parseDigits (d :: rest) 0).2) := by
  simp [parseValue, h]

theorem parseValue_arrNil (fuel : Nat) (r : List Char) :
    parseValue (fuel + 1) ('[' :: ']' :: r) = some (.arr [], r) := by
  simp [parseValue]

theorem parseValue_arrCons (fuel : Nat) (c : Char) (cs : List Char) (xs : List Json)
    (r : List Char) (hc : c ≠ ']') (h : parseItems fuel (c :: cs) = some (xs, r)) :
    parseValue (fuel + 1) ('[' :: c :: cs) = some (.arr xs, r) := by
  simp [parseValue, hc, h]

theorem parseValue_objNil (fuel : Nat) (r : List Char) :
    parseValue (fuel + 1) ('{' :: '}' :: r) = some (.obj [], r) := by
  simp [parseValue]

theorem parseValue_objCons (fuel : Nat) (cs : List Char) (fs : List (String × Json))
    (r : List Char) (h : parseMembers fuel ('"' :: cs) = some (fs, r)) :
    parseValue (fuel + 1) ('{' :: '"' :: cs) = some (.obj fs, r) := by
  simp [parseValue, h]

theorem parseItems_last (fuel : Nat) (cs : List Char) (v : Json) (r : List Char)
    (h : parseValue fuel cs = some (v, ']' :: r)) :
    parseItems (fuel + 1) cs = some ([v], r) := by
  simp [parseItems, h]

theorem parseItems_cons (fuel : Nat) (cs : List Char) (v : Json) (r₂ : List Char)
    (vs : List Json) (r₃ : List Char) (h : parseValue fuel cs = some (v, ',' :: r₂))
    (h2 : parseItems fuel r₂ = some (vs, r₃)) :
    parseItems (fuel + 1) cs = some (v :: vs, r₃) := by
  simp [parseItems, h, h2]

theorem parseMembers_last (fuel : Nat) (cs₂ k : List Char) (r₂ : List Char) (v : Json)
    (r : List Char) (hk : parseStringBody cs₂ = some (k, ':' :: r₂))
    (hv : parseValue fuel r₂ = some (v, '}' :: r)) :
    parseMembers (fuel + 1) ('"' :: cs₂) = some ([(String.mk k, v)], r) := by
  simp [parseMembers, hk, hv]

theorem parseMembers_cons (fuel : Nat) (cs₂ k : List Char) (r₂ : List Char) (v : Json)
    (r₄ : List Char) (fs : List (String × Json)) (r₅ : List Char)
    (hk : parseStringBody cs₂ = some (k, ':' :: r₂))
    (hv : parseValue fuel r₂ = some (v, ',' :: r₄))
    (hm : parseMembers fuel r₄ = some (fs, r₅)) :
    parseMembers (fuel + 1) ('"' :: cs₂) = some ((String.mk k, v) :: fs, r₅) := by
  simp [parseMembers, hk, hv, hm]

theorem notDigitStart_comma (r : List Char) : notDigitStart (',' :: r) := by
  simp only [notDigitStart]; decide

theorem notDigitStart_rbracket (r : List Char) : notDigitStart (']' :: r) := by
  simp only [notDigitStart]; decide

theorem notDigitStart_rbrace (r : List Char) : notDigitStart ('}' :: r) := by
  simp only [notDigitStart]; decide

theorem parse_ser_all (fuel : Nat) :
    (∀ v r, jweight v ≤ fuel → notDigitStart r →
       parseValue fuel (serJson v ++ r) = some (v, r)) ∧
    (∀ xs r, xs ≠ [] → jweightItems xs ≤ fuel →
       parseItems fuel (serItems xs ++ ']' :: r) = some (xs, r)) ∧
    (∀ fs r, fs ≠ [] → jweightMembers fs ≤ fuel →
       parseMembers fuel (serMembers fs ++ '}' :: r) = some (fs, r)) := by
  induction fuel with
  | zero =>
    refine ⟨?_, ?_, ?_⟩
    · intro v r hw _
      exact absurd hw (by have := jweight_pos v; omega)
    · intro xs r hne hw
      cases xs with
      | nil => exact absurd rfl hne
      | cons x xs =>
        have := jweight_pos x
        simp only [jweightItems] at hw
        omega
    · intro fs r hne hw
      cases fs with
      | nil => exact absurd rfl hne
      | cons f fs =>
        cases f with
        | mk k v =>
          have := jweight_pos v
          simp only [jweightMembers] at hw
          omega
  | succ fuel ih =>
    obtain ⟨ihV, ihI, ihM⟩ := ih
    refine ⟨?_, ?_, ?_⟩
    · intro v r hw hr
      cases v with
      | null =>
        simp only [serJson, List.cons_append, List.nil_append]
        exact parseValue_null fuel r
      | bool b =>
        cases b with
        | true =>
          simp only [serJson, List.cons_append, List.nil_append]
          exact parseValue_true fuel r
        | false =>
          simp only [serJson, List.cons_append, List.nil_append]
          exact parseValue_false fuel r
      | num n =>
        rcases Int.lt_or_le n 0 with hn | hn
        · obtain ⟨d, ds, hds, hdig⟩ := natToDigits_cons n.natAbs
          have hstep := parseValue_neg fuel d (ds ++ r) hdig
          have hpd : parseDigits (d :: (ds ++ r)) 0 = (n.natAbs, r) := by
            have hq := parseDigits_natToDigits n.natAbs r hr
            rwa [hds, List.cons_append] at hq
          rw [hpd] at hstep
          simp only [serJson, intToChars, if_pos hn, hds, List.cons_append]
          rw [hstep]
          have habs : -((n.natAbs : Nat) : Int) = n := by omega
          rw [habs]
        · obtain ⟨d, ds, hds, hdig⟩ := natToDigits_cons n.natAbs
          have hstep := parseValue_digit fuel d (ds ++ r) hdig
          have hpd : parseDigits (d :: (ds ++ r)) 0 = (n.natAbs, r) := by
            have hq := parseDigits_natToDigits n.natAbs r hr
            rwa [hds, List.cons_append] at hq
          rw [hpd] at hstep
          simp only [serJson, intToChars, if_neg (Int.not_lt.mpr hn), hds, List.cons_append]
          rw [hstep]
          have habs : ((n.natAbs : Nat) : Int) = n := by omega
          rw [habs]
      | str s =>
        have hsb := parseStringBody_escape s.data r
        have hstep := parseValue_str fuel (escapeList s.data ++ '"' :: r) s.data r hsb
        simp only [serJson, List.cons_append, List.append_assoc, List.nil_append,
          List.singleton_append] at hstep ⊢
        rw [hstep]
      | arr xs =>
        cases xs with
        | nil =>
          simp only [serJson, serItems, List.nil_append, List.cons_append]
          exact parseValue_arrNil fuel r
        | cons x xs =>
          obtain ⟨c0, cs0, hc0, hc0r, _⟩ := serJson_cons x
          have hweight : jweightItems (x :: xs) ≤ fuel := by
            simp only [jweight] at hw
            omega
          have hitems := ihI (x :: xs) r (by simp) hweight
          have hser : serItems (x :: xs) = c0 :: (cs0 ++ serItemsRest xs) := by
            simp [serItems, hc0]
          rw [hser] at hitems
          simp only [List.cons_append, List.append_assoc] at hitems
          simp only [serJson, hser, List.cons_append, List.append_assoc]
          exact parseValue_arrCons fuel c0 _ (x :: xs) r hc0r hitems
      | obj fs =>
        cases fs with
        | nil =>
          simp only [serJson, serMembers, List.nil_append, List.cons_append]
          exact parseValue_objNil fuel r
        | cons f fs =>
          cases f with
          | mk k v =>
            have hweight : jweightMembers ((k, v) :: fs) ≤ fuel := by
              simp only [jweight] at hw
              omega
            have hmem := ihM ((k, v) :: fs) r (by simp) hweight
            simp only [serMembers, List.cons_append, List.append_assoc] at hmem
            simp only [serJson, serMembers, List.cons_append, List.append_assoc]
            exact parseValue_objCons fuel _ ((k, v) :: fs) r hmem
    · intro xs r hne hw
      cases xs with
      | nil => exact absurd rfl hne
      | cons x xs =>
        cases xs with
        | nil =>
          have hwx : jweight x ≤ fuel := by
            simp only [jweightItems] at hw
            omega
          have hv := ihV x (']' :: r) hwx (notDigitStart_rbracket r)
          simp only [serItems, serItemsRest, List.append_nil]
          exact parseItems_last fuel _ x r hv
        | cons y ys =>
          have hwx : jweight x ≤ fuel := by
            have h1 := jweight_pos y
            simp only [jweightItems] at hw
            omega
          have hwr : jweightItems (y :: ys) ≤ fuel := by
            have h1 := jweight_pos x
            simp only [jweightItems] at hw ⊢
            omega
          have hv := ihV x (',' :: (serItems (y :: ys) ++ ']' :: r)) hwx (notDigitStart_comma _)
          have hrest := ihI (y :: ys) r (by simp) hwr
          have hfin := parseItems_cons fuel _ x _ (y :: ys) r hv hrest
          simp only [serItems, serItemsRest_cons, List.cons_append, List.append_assoc] at hfin ⊢
          exact hfin
    · intro fs r hne hw
      cases fs with
      | nil => exact absurd rfl hne
      | cons f fs =>
        cases f with
        | mk k v =>
          cases fs with
          | nil =>
            have hwv : jweight v ≤ fuel := by
              simp only [jweightMembers] at hw
              omega
            have hv := ihV v ('}' :: r) hwv (notDigitStart_rbrace r)
            have hk := parseStringBody_escape k.data (':' :: (serJson v ++ '}' :: r))
            have hfin := parseMembers_last fuel _ k.data _ v r hk hv
            simp only [serMembers, serMembersRest, List.cons_append, List.append_assoc,
              List.append_nil] at hfin ⊢
            exact hfin
          | cons m ms =>
            have hwv : jweight v ≤ fuel := by
              cases m with
              | mk k2 v2 =>
                have h1 := jweight_pos v2
                simp only [jweightMembers] at hw
                omega
            have hwr : jweightMembers (m :: ms) ≤ fuel := by
              have h1 := jweight_pos v
              simp only [jweightMembers] at hw ⊢
              omega
            have hv := ihV v (',' :: (serMembers (m :: ms) ++ '}' :: r)) hwv (notDigitStart_comma _)
            have hrest := ihM (m :: ms) r (by simp) hwr
            have hk := parseStringBody_escape k.data
              (':' :: (serJson v ++ ',' :: (serMembers (m :: ms) ++ '}' :: r)))
            have hfin := parseMembers_cons fuel _ k.data _ v _ (m :: ms) r hk hv hrest
            simp only [serMembers, serMembersRest_cons, List.cons_append,
              List.append_assoc] at hfin ⊢
            exact hfin

theorem notDigitStart_nil : notDigitStart [] := by
  simp only [notDigitStart]

theorem parseValue_ser (v : Json) (fuel : Nat) (h : jweight v ≤ fuel) :
    parseValue fuel (serJson v) = some (v, []) := by
  have hq := (parse_ser_all fuel).1 v [] h notDigitStart_nil
  simpa using hq

theorem serJson_inj (v₁ v₂ : Json) (h : serJson v₁ = serJson v₂) : v₁ = v₂ := by
  have h1 := parseValue_ser v₁ (max (jweight v₁) (jweight v₂)) (le_max_left _ _)
  have h2 := parseValue_ser v₂ (max (jweight v₁) (jweight v₂)) (le_max_right _ _)
  rw [h] at h1
  rw [h1] at h2
  have := Option.some.inj h2
  exact (Prod.mk.injEq _ _ _ _ ▸ this).1

theorem canonicalizeJson_inj (v₁ v₂ : Json) (h : canonicalizeJson v₁ = canonicalizeJson v₂) :
    sortJson v₁ = sortJson v₂ := by
  apply serJson_inj
  have hq : (canonicalizeJson v₁).data = (canonicalizeJson v₂).data := by rw [h]
  simpa [canonicalizeJson] using hq

theorem char_toNat_lt (c : Char) : c.toNat < 1114112 := by
  have h := c.valid
  simp only [Char.toNat]
  rcases h with h | h <;> omega

theorem char_toNat_inj (c₁ c₂ : Char) (h : c₁.toNat = c₂.toNat) : c₁ = c₂ := by
  have h1 := Char.ofNat_toNat c₁
  have h2 := Char.ofNat_toNat c₂
  rw [← h1, ← h2, h]

theorem hexDigitChar_toNat (a : Nat) (h : a < 16) :
    (hexDigitChar a).toNat = if a < 10 then 48 + a else 87 + a := by
  interval_cases a <;> decide

theorem hexDigitChar_inj (a b : Nat) (ha : a < 16) (hb : b < 16)
    (h : hexDigitChar a = hexDigitChar b) : a = b := by
  have := congrArg Char.toNat h
  rw [hexDigitChar_toNat a ha, hexDigitChar_toNat b hb] at this
  by_cases h1 : a < 10 <;> by_cases h2 : b < 10 <;> simp [h1, h2] at this <;> omega

theorem hex6_inj (c₁ c₂ : Char) (h : hex6 c₁ = hex6 c₂) : c₁ = c₂ := by
  simp only [hex6, List.cons.injEq, and_true] at h
  obtain ⟨e1, e2, e3, e4, e5, e6⟩ := h
  have b1 := char_toNat_lt c₁
  have b2 := char_toNat_lt c₂
  have d1 := hexDigitChar_inj _ _ (Nat.mod_lt _ (by omega)) (Nat.mod_lt _ (by omega)) e1
  have d2 := hexDigitChar_inj _ _ (Nat.mod_lt _ (by omega)) (Nat.mod_lt _ (by omega)) e2
  have d3 := hexDigitChar_inj _ _ (Nat.mod_lt _ (by omega)) (Nat.mod_lt _ (by omega)) e3
  have d4 := hexDigitChar_inj _ _ (Nat.mod_lt _ (by omega)) (Nat.mod_lt _ (by omega)) e4
  have d5 := hexDigitChar_inj _ _ (Nat.mod_lt _ (by omega)) (Nat.mod_lt _ (by omega)) e5
  have d6 := hexDigitChar_inj _ _ (Nat.mod_lt _ (by omega)) (Nat.mod_lt _ (by omega)) e6
  apply char_toNat_inj
  omega

theorem hex6_length (c : Char) : (hex6 c).length = 6 := by
  simp [hex6]

theorem hexDump_inj (l₁ : List Char) :
    ∀ l₂, hexDump l₁ = hexDump l₂ → l₁ = l₂ := by
  induction l₁ with
  | nil =>
    intro l₂ h
    cases l₂ with
    | nil => rfl
    | cons c cs =>
      have := congrArg List.length h
      simp [hexDump, hex6_length] at this
      omega
  | cons c cs ih =>
    intro l₂ h
    cases l₂ with
    | nil =>
      have := congrArg List.length h
      simp [hexDump, hex6_length] at this
    | cons c₂ cs₂ =>
      simp only [hexDump] at h
      have hlen : (hex6 c).length = (hex6 c₂).length := by
        rw [hex6_length, hex6_length]
      obtain ⟨h1, h2⟩ := List.append_inj h hlen
      rw [hex6_inj c c₂ h1, ih cs₂ h2]

theorem keccak256_inj (s₁ s₂ : String) (h : keccak256 s₁ = keccak256 s₂) : s₁ = s₂ := by
  have hdata := congrArg String.data h
  simp only [keccak256, List.cons.injEq, true_and] at hdata
  have h2 := hexDump_inj s₁.data s₂.data hdata
  cases s₁ with
  | mk d₁ =>
    cases s₂ with
    | mk d₂ =>
      simp only at h2
      rw [h2]

theorem toLower_hexDigitChar (n : Nat) (h : n < 16) :
    Char.toLower (hexDigitChar n) = hexDigitChar n := by
  interval_cases n <;> decide

theorem toLower_hexDigitChar_mod (x : Nat) :
    Char.toLower (hexDigitChar (x % 16)) = hexDigitChar (x % 16) :=
  toLower_hexDigitChar _ (Nat.mod_lt _ (by omega))

theorem map_toLower_hex6 (c : Char) : (hex6 c).map Char.toLower = hex6 c := by
  simp [hex6, toLower_hexDigitChar_mod]

theorem map_toLower_hexDump (l : List Char) : (hexDump l).map Char.toLower = hexDump l := by
  induction l with
  | nil => simp [hexDump]
  | cons c cs ih => simp [hexDump, map_toLower_hex6, ih]

theorem toLowerStr_keccak (s : String) : toLowerStr (keccak256 s) = keccak256 s := by
  simp [toLowerStr, keccak256, map_toLower_hexDump,
    (by decide : Char.toLower '0' = '0'), (by decide : Char.toLower 'x' = 'x')]

theorem keccak_lower_inj (a b : String)
    (h : toLowerStr (keccak256 a) = toLowerStr (keccak256 b)) : a = b := by
  rw [toLowerStr_keccak, toLowerStr_keccak] at h
  exact keccak256_inj a b h

theorem mandateHash_stripSig (m : Mandate) :
    Mandate.mandateHash (stripSig m) = Mandate.mandateHash m := rfl

theorem mandateHash_congr (m₁ m₂ : Mandate) (h : stripSig m₁ = stripSig m₂) :
    Mandate.mandateHash m₁ = Mandate.mandateHash m₂ := by
  rw [← mandateHash_stripSig m₁, ← mandateHash_stripSig m₂, h]

theorem sortJson_str (s : String) : sortJson (.str s) = .str s := by
  simp [sortJson]

theorem sortfix7 (a c d e f g h : Json) :
    sortFields [(r"mandateId", a), (r"client", c), (r"server", d),
      (r"createdAt", e), (r"deadline", f), (r"intent", g), (r"core", h)] =
    [(r"client", c), (r"core", h), (r"createdAt", e), (r"deadline", f),
      (r"intent", g), (r"mandateId", a), (r"server", d)] := by
  rfl

theorem sortJson_mandateDoc_none (m : Mandate) (hv : m.version = none)
    (hc : sortJson m.core = m.core) :
    sortJson (mandateDocJson m) =
      Json.obj [(r"client", Json.str m.client), (r"core", m.core),
        (r"createdAt", Json.str m.createdAt), (r"deadline", Json.str m.deadline),
        (r"intent", Json.str m.intent), (r"mandateId", Json.str m.mandateId),
        (r"server", Json.str m.server)] := by
  simp only [mandateDocJson, hv, versionField, List.nil_append, List.append_nil,
    List.cons_append, sortJson, sortMembers, sortJson_str, hc]
  rw [sortfix7]

theorem sortJson_mandateDoc_some (m : Mandate) (v : String) (hv : m.version = some v)
    (hc : sortJson m.core = m.core) :
    sortJson (mandateDocJson m) =
      Json.obj [(r"client", Json.str m.client), (r"core", m.core),
        (r"createdAt", Json.str m.createdAt), (r"deadline", Json.str m.deadline),
        (r"intent", Json.str m.intent), (r"mandateId", Json.str m.mandateId),
        (r"server", Json.str m.server), (r"version", Json.str v)] := by
  simp only [mandateDocJson, hv, versionField, List.nil_append, List.append_nil,
    List.cons_append, sortJson, sortMembers, sortJson_str, hc]
  rw [sortfix]

theorem mandateHash_inj_base (m₁ m₂ : Mandate)
    (h₁ : sortJson m₁.core = m₁.core) (h₂ : sortJson m₂.core = m₂.core)
    (h : Mandate.mandateHash m₁ = Mandate.mandateHash m₂) :
    stripSig m₁ = stripSig m₂ := by
  have hcanon : canonicalizeForHash m₁ = canonicalizeForHash m₂ := keccak256_inj _ _ h
  have hs := canonicalizeJson_inj _ _ hcanon
  cases hv₁ : m₁.version with
  | none =>
    cases hv₂ : m₂.version with
    | none =>
      rw [sortJson_mandateDoc_none m₁ hv₁ h₁, sortJson_mandateDoc_none m₂ hv₂ h₂] at hs
      simp only [Json.obj.injEq, List.cons.injEq, Prod.mk.injEq, Json.str.injEq, and_true,
        true_and] at hs
      cases m₁
      cases m₂
      simp only [stripSig]
      simp_all
    | some v₂ =>
      rw [sortJson_mandateDoc_none m₁ hv₁ h₁, sortJson_mandateDoc_some m₂ v₂ hv₂ h₂] at hs
      simp at hs
  | some v₁ =>
    cases hv₂ : m₂.version with
    | none =>
      rw [sortJson_mandateDoc_some m₁ v₁ hv₁ h₁, sortJson_mandateDoc_none m₂ hv₂ h₂] at hs
      simp at hs
    | some v₂ =>
      rw [sortJson_mandateDoc_some m₁ v₁ hv₁ h₁, sortJson_mandateDoc_some m₂ v₂ hv₂ h₂] at hs
      simp only [Json.obj.injEq, List.cons.injEq, Prod.mk.injEq, Json.str.injEq, and_true,
        true_and] at hs
      cases m₁
      cases m₂
      simp only [stripSig]
      simp_all

theorem mandateHash_eq_iff (m₁ m₂ : Mandate)
    (h₁ : sortJson m₁.core = m₁.core) (h₂ : sortJson m₂.core = m₂.core) :
    Mandate.mandateHash m₁ = Mandate.mandateHash m₂ ↔ stripSig m₁ = stripSig m₂ :=
  ⟨mandateHash_inj_base m₁ m₂ h₁ h₂, mandateHash_congr m₁ m₂⟩

theorem attachSig_mandateHash (m : Mandate) (role : Role) (sig : Signature) :
    Mandate.mandateHash (Mandate.attachSig m role sig) = Mandate.mandateHash m := by
  cases role <;> rfl

theorem attachSig_toCanonicalString (m : Mandate) (role : Role) (sig : Signature) :
    Mandate.toCanonicalString (Mandate.attachSig m role sig) = Mandate.toCanonicalString m := by
  cases role <;> rfl

theorem attachSig_stripSig (m : Mandate) (role : Role) (sig : Signature) :
    stripSig (Mandate.attachSig m role sig) = stripSig m := by
  cases role <;> rfl

theorem sign_snd_mandateHash (m : Mandate) (role : Role) (w : HDNodeWallet) (alg : SigAlg)
    (d : Option TypedDataDomain) :
    Mandate.mandateHash (Mandate.sign m role w alg d).2 = Mandate.mandateHash m := by
  cases alg with
  | eip191 => simp [Mandate.sign, attachSig_mandateHash]
  | eip712 =>
    cases d with
    | none => simp [Mandate.sign]
    | some dd =>
      cases hdd : dd.chainId with
      | none => simp [Mandate.sign, hdd]
      | some cid => simp [Mandate.sign, hdd, attachSig_mandateHash]

theorem setSig_toCanonicalString (m : Mandate) (sigs : Option MandateSignatures) :
    Mandate.toCanonicalString { m with signatures := sigs } = Mandate.toCanonicalString m := rfl

theorem setSig_mandateHash (m : Mandate) (sigs : Option MandateSignatures) :
    Mandate.mandateHash { m with signatures := sigs } = Mandate.mandateHash m := rfl

/-- C1: toCanonicalString and mandateHash are computed over the document with
the signatures field removed: the canonical string and the hash are invariant
under attaching or removing signatures, the hash before sign equals the hash
after sign (whatever role, wallet, algorithm and domain), and the hash
changes iff some non-signature field (mandateId, version, client, server,
createdAt, deadline, intent, core) changes.  The last part is stated for
mandates whose core is in JCS-canonical form (sortJson-fixed), i.e. up to
the key order JavaScript objects do not semantically carry, and reads the
collision-freeness idealization of keccak256 as injectivity. -/
theorem C1_hash_ignores_signatures :
    (∀ (m : Mandate) (sigs : Option MandateSignatures),
       Mandate.toCanonicalString { m with signatures := sigs } = Mandate.toCanonicalString m ∧
       Mandate.mandateHash { m with signatures := sigs } = Mandate.mandateHash m) ∧
    (∀ (m : Mandate) (role : Role) (w : HDNodeWallet) (alg : SigAlg)
       (d : Option TypedDataDomain),
       Mandate.mandateHash (Mandate.sign m role w alg d).2 = Mandate.mandateHash m) ∧
    (∀ m₁ m₂ : Mandate, sortJson m₁.core = m₁.core → sortJson m₂.core = m₂.core →
       (Mandate.mandateHash m₁ ≠ Mandate.mandateHash m₂ ↔ stripSig m₁ ≠ stripSig m₂)) := by
  refine ⟨fun m sigs => ⟨rfl, rfl⟩, sign_snd_mandateHash, fun m₁ m₂ h₁ h₂ => ?_⟩
  exact not_iff_not.mpr (mandateHash_eq_iff m₁ m₂ h₁ h₂)

/-- Witness for C1 at concrete mandates differing only in intent. -/
theorem C1_witness :
    Mandate.mandateHash mW1 ≠ Mandate.mandateHash mW2 ↔ stripSig mW1 ≠ stripSig mW2 :=
  C1_hash_ignores_signatures.2.2 mW1 mW2
    (by simp [mW1, sortJson, sortMembers, sortFields])
    (by simp [mW2, sortJson, sortMembers, sortFields])

/-- C4: fromObject of toJSON reproduces the mandate exactly (hence with a
deeply-equal toJSON), signatures included, for every mandate whose client,
server and deadline are non-empty — which every constructed mandate
satisfies, since the constructor rejects missing or empty values. -/
theorem C4_roundtrip (m : Mandate) (genId now : String)
    (hc : m.client.isEmpty = false) (hs : m.server.isEmpty = false)
    (hd : m.deadline.isEmpty = false) :
    Mandate.fromObject (Mandate.toJSON m) genId now = .ok m ∧
    ∀ m' : Mandate, Mandate.fromObject (Mandate.toJSON m) genId now = .ok m' →
      Mandate.toJSON m' = Mandate.toJSON m := by
  have h1 : Mandate.fromObject (Mandate.toJSON m) genId now = .ok m := by
    cases m with
    | mk mid ver cl sv ca dl it co sg =>
      simp only [Mandate.fromObject, Mandate.toJSON, deepClone, jsonToInit, Mandate.create,
        strFalsy] at hc hs hd ⊢
      rw [if_neg (by simp [hc, hs]), if_neg (by simp [hd])]
      simp [orEmpty]
  refine ⟨h1, fun m' hm' => ?_⟩
  rw [h1] at hm'
  injection hm' with h2
  rw [h2]

theorem attachSig_effect (m : Mandate) (role : Role) (sig : Signature) :
    ∃ sigs, (Mandate.attachSig m role sig).signatures = some sigs ∧
      roleSig sigs role = some sig ∧
      roleSig sigs (otherRole role) = roleSig (m.signatures.getD {}) (otherRole role) := by
  cases role <;> simp [Mandate.attachSig, roleSig, otherRole]

theorem sign_ok_shape (m : Mandate) (role : Role) (w : HDNodeWallet) (alg : SigAlg)
    (d : Option TypedDataDomain) (sig : Signature) (m' : Mandate)
    (h : Mandate.sign m role w alg d = (.ok sig, m')) :
    m' = Mandate.attachSig m role sig ∧
    sig.mandateHash = Mandate.mandateHash m ∧ sig.alg = alg := by
  cases alg with
  | eip191 =>
    simp only [Mandate.sign, Prod.mk.injEq] at h
    obtain ⟨h1, h2⟩ := h
    injection h1 with h1
    subst h1
    subst h2
    exact ⟨rfl, rfl, rfl⟩
  | eip712 =>
    cases d with
    | none => simp [Mandate.sign] at h
    | some dd =>
      cases hdd : dd.chainId with
      | none => simp [Mandate.sign, hdd] at h
      | some cid =>
        simp only [Mandate.sign, hdd, Prod.mk.injEq] at h
        obtain ⟨h1, h2⟩ := h
        injection h1 with h1
        subst h1
        subst h2
        exact ⟨rfl, rfl, rfl⟩

/-- C5: signing the same role twice overwrites: after two successful signs
for a role, the signatures object holds exactly the second signature for
that role (the Option-valued slot holds at most one signature), and the
other role slot is exactly what it was before both signs. -/
theorem C5_resign_overwrites (m : Mandate) (role : Role)
    (w₁ w₂ : HDNodeWallet) (alg₁ alg₂ : SigAlg) (d₁ d₂ : Option TypedDataDomain)
    (sig₁ : Signature) (m₁ : Mandate) (sig₂ : Signature) (m₂ : Mandate)
    (h₁ : Mandate.sign m role w₁ alg₁ d₁ = (.ok sig₁, m₁))
    (h₂ : Mandate.sign m₁ role w₂ alg₂ d₂ = (.ok sig₂, m₂)) :
    ∃ sigs, m₂.signatures = some sigs ∧ roleSig sigs role = some sig₂ ∧
      roleSig sigs (otherRole role) = roleSig (m.signatures.getD {}) (otherRole role) := by
  obtain ⟨hm₁, _, _⟩ := sign_ok_shape m role w₁ alg₁ d₁ sig₁ m₁ h₁
  obtain ⟨hm₂, _, _⟩ := sign_ok_shape m₁ role w₂ alg₂ d₂ sig₂ m₂ h₂
  subst hm₁
  subst hm₂
  obtain ⟨sigsA, hA1, _, hA3⟩ := attachSig_effect m role sig₁
  obtain ⟨sigsB, hB1, hB2, hB3⟩ := attachSig_effect (Mandate.attachSig m role sig₁) role sig₂
  refine ⟨sigsB, hB1, hB2, ?_⟩
  rw [hB3, hA1]
  simpa using hA3

/-- C6 (counterexample): the constructor performs no CAIP-10 format
validation — construction with the malformed identifiers "not-caip10" and
"also!bad" succeeds, contradicting the claim that construction fails when
client or server is present but not a well-formed chain-qualified
identifier. -/
theorem C6_counterexample :
    Mandate.create
        { client := some (r"not-caip10")
          server := some (r"also!bad")
          deadline := some (r"whenever") } (r"GEN") (r"NOW") =
      .ok { mandateId := r"GEN"
            version := none
            client := r"not-caip10"
            server := r"also!bad"
            createdAt := r"NOW"
            deadline := r"whenever"
            intent := String.mk []
            core := Json.obj []
            signatures := none } := by
  rfl

/-- C6 (amended): construction fails with the descriptive errors when
client, server or deadline is missing or empty (JavaScript-falsy); any
non-empty client and server strings are accepted, well-formed CAIP-10 or
not (no format validation is performed); on success mandateId is the
generated id when omitted, createdAt defaults to construction time, intent
to the empty string and core to the empty object. -/
theorem C6_amended (init : MandateInit) (genId now : String) :
    ((strFalsy init.client || strFalsy init.server) = true →
       Mandate.create init genId now =
         .error (.constructionError (r"client and server (CAIP-10) are required"))) ∧
    ((strFalsy init.client || strFalsy init.server) = false → strFalsy init.deadline = true →
       Mandate.create init genId now =
         .error (.constructionError (r"deadline (ISO 8601) is required"))) ∧
    (∀ c s dl : String, init.client = some c → init.server = some s → init.deadline = some dl →
       c.isEmpty = false → s.isEmpty = false → dl.isEmpty = false →
       ∃ m : Mandate, Mandate.create init genId now = .ok m ∧
         m.client = c ∧ m.server = s ∧ m.deadline = dl ∧
         m.mandateId = init.mandateId.getD genId ∧
         m.createdAt = init.createdAt.getD now ∧
         m.intent = init.intent.getD (String.mk []) ∧
         m.core = init.core.getD (Json.obj []) ∧
         m.signatures = init.signatures) := by
  refine ⟨fun h1 => ?_, fun h1 h2 => ?_, fun c s dl hc hs hdl hce hse hdle => ?_⟩
  · simp [Mandate.create, h1]
  · simp [Mandate.create, h1, h2]
  · have h1 : (strFalsy init.client || strFalsy init.server) = false := by
      simp [strFalsy, hc, hs, hce, hse]
    have h2 : strFalsy init.deadline = false := by simp [strFalsy, hdl, hdle]
    refine ⟨{ mandateId := init.mandateId.getD genId
              version := init.version
              client := c
              server := s
              createdAt := init.createdAt.getD now
              deadline := dl
              intent := init.intent.getD (String.mk [])
              core := init.core.getD (Json.obj [])
              signatures := init.signatures }, ?_, rfl, rfl, rfl, rfl, rfl, rfl, rfl, rfl⟩
    simp [Mandate.create, orEmpty, hc, hs, hdl, strFalsy, hce, hse, hdle]

theorem hasKind_false_lookup (reg : Registry) (kind : String)
    (h : Registry.hasKind reg kind = false) : List.lookup kind reg = none := by
  cases hl : List.lookup kind reg with
  | none => rfl
  | some d =>
    simp only [Registry.hasKind, hl] at h
    simp at h

theorem lookup_append_self (reg : Registry) (k : String) (d : PrimitiveDef)
    (h : Registry.hasKind reg k = false) : List.lookup k (reg ++ [(k, d)]) = some d := by
  induction reg with
  | nil => simp [List.lookup]
  | cons p reg ih =>
    cases p with
    | mk k' d' =>
      rw [List.cons_append]
      by_cases he : (k == k') = true
      · exfalso
        simp only [Registry.hasKind, List.lookup, he] at h
        simp at h
      · simp only [Bool.not_eq_true] at he
        simp only [List.lookup, he]
        apply ih
        simp only [Registry.hasKind] at h ⊢
        simpa [List.lookup, he] using h

/-- C7: registering a kind that is already registered fails on the second
call with the duplicate-registration error and leaves the registry, hence
the first registration and its validator, intact; getPrimitive of an
unregistered kind fails with the unknown-primitive error; hasPrimitive is a
total boolean lookup, true iff the kind is registered. -/
theorem C7_registry :
    (∀ (reg : Registry) (d : PrimitiveDef) (reg₁ : Registry),
       Mandate.registerPrimitive reg d = (.ok (), reg₁) →
       ∀ d₂ : PrimitiveDef, d₂.kind = d.kind →
         Mandate.registerPrimitive reg₁ d₂ = (.error (.duplicateRegistration d.kind), reg₁) ∧
         Mandate.getPrimitive reg₁ d.kind = .ok d) ∧
    (∀ (reg : Registry) (kind : String), Registry.hasKind reg kind = false →
       Mandate.getPrimitive reg kind = .error (.unknownPrimitive kind)) ∧
    (∀ (reg : Registry) (kind : String),
       Mandate.hasPrimitive reg kind = true ↔ ∃ d, List.lookup kind reg = some d) := by
  refine ⟨?_, ?_, ?_⟩
  · intro reg d reg₁ hreg d₂ hkind
    by_cases h : Registry.hasKind reg d.kind
    · simp [Mandate.registerPrimitive, h] at hreg
    · simp only [Mandate.registerPrimitive, h, Bool.false_eq_true, if_false,
        Prod.mk.injEq] at hreg
      obtain ⟨_, hreg₁⟩ := hreg
      subst hreg₁
      have hfound := lookup_append_self reg d.kind d (by simpa using h)
      have hhas : Registry.hasKind (reg ++ [(d.kind, d)]) d.kind = true := by
        simp [Registry.hasKind, hfound]
      refine ⟨?_, ?_⟩
      · simp [Mandate.registerPrimitive, hkind, hhas]
      · simp [Mandate.getPrimitive, hfound]
  · intro reg kind h
    simp [Mandate.getPrimitive, hasKind_false_lookup reg kind h]
  · intro reg kind
    simp [Mandate.hasPrimitive, Registry.hasKind, Option.isSome_iff_exists]

/-- C8: setCore fails with unknown-primitive for an unregistered kind and
with payload-validation when the registered validator rejects, and in both
failure cases the returned post-state is the unchanged mandate; on success
it replaces core with the kind/validated-payload object by a single
whole-value assignment, leaving every other field, signatures included,
unchanged. -/
theorem C8_setCore (reg : Registry) (m : Mandate) (kind : String) (payload : Option Json) :
    (Registry.hasKind reg kind = false →
       Mandate.setCore reg m kind payload = (.error (.unknownPrimitive kind), m)) ∧
    (∀ (d : PrimitiveDef) (msg : String), List.lookup kind reg = some d →
       d.validator.parse payload = .error msg →
       Mandate.setCore reg m kind payload = (.error (.payloadValidation msg), m)) ∧
    (∀ (d : PrimitiveDef) (typed : Json), List.lookup kind reg = some d →
       d.validator.parse payload = .ok typed →
       Mandate.setCore reg m kind payload =
         (.ok (), { m with core := Json.obj [(r"kind", Json.str kind), (r"payload", typed)] })) := by
  refine ⟨fun h => ?_, fun d msg hd hmsg => ?_, fun d typed hd htyped => ?_⟩
  · simp [Mandate.setCore, Mandate.getPrimitive, hasKind_false_lookup reg kind h]
  · simp [Mandate.setCore, Mandate.getPrimitive, hd, hmsg]
  · simp [Mandate.setCore, Mandate.getPrimitive, hd, htyped]

/-- C10: a mandate constructed without a core gets the empty object, not an
absent field: is returns false for every kind, coreAsKind fails with the
kind-mismatch error for every kind (as does coreAs with an expected kind),
and coreAs without an expected kind never takes the core-missing branch —
the empty object is truthy and of type object — and instead hands the
absent payload (none, JavaScript undefined) to the supplied validator. -/
theorem C10_default_core (init : MandateInit) (genId now : String) (m : Mandate)
    (hcore : init.core = none) (h : Mandate.create init genId now = .ok m) :
    m.core = Json.obj [] ∧
    (∀ kind, Mandate.is m kind = false) ∧
    (∀ (reg : Registry) (kind : String),
       Mandate.coreAsKind reg m kind = .error (.coreKindMismatch kind)) ∧
    (∀ (schema : PrimitiveValidator) (k : String),
       Mandate.coreAs m schema (some k) = .error (.coreKindMismatch k)) ∧
    (∀ schema : PrimitiveValidator,
       Mandate.coreAs m schema none =
         (match schema.parse none with
          | .ok t => .ok t
          | .error msg => .error (.payloadValidation msg))) := by
  have hmc : m.core = Json.obj [] := by
    simp only [Mandate.create] at h
    by_cases h1 : (strFalsy init.client || strFalsy init.server) = true
    · rw [if_pos h1] at h
      cases h
    · rw [if_neg h1] at h
      by_cases h2 : strFalsy init.deadline = true
      · rw [if_pos h2] at h
        cases h
      · rw [if_neg h2] at h
        injection h with h3
        rw [← h3]
        simp [hcore]
  refine ⟨hmc, ?_, ?_, ?_, ?_⟩
  · intro kind
    simp [Mandate.is, hmc, kindIs, jsGet, List.lookup]
  · intro reg kind
    simp [Mandate.coreAsKind, hmc, kindIs, jsGet, jsTruthy, List.lookup]
  · intro schema k
    simp [Mandate.coreAs, hmc, kindIs, jsGet, jsTruthy, jsTypeof, List.lookup]
  · intro schema
    simp [Mandate.coreAs, hmc, jsGet, jsTruthy, jsTypeof, List.lookup]

theorem hash_lower_ne (m₀ m' : Mandate)
    (h₀ : sortJson m₀.core = m₀.core) (h' : sortJson m'.core = m'.core)
    (hne : stripSig m₀ ≠ stripSig m') :
    toLowerStr (Mandate.mandateHash m₀) ≠ toLowerStr (Mandate.mandateHash m') := by
  intro heq
  have hcanon : canonicalizeForHash m₀ = canonicalizeForHash m' :=
    keccak_lower_inj _ _ heq
  have hhash : Mandate.mandateHash m₀ = Mandate.mandateHash m' := by
    simp only [Mandate.mandateHash, computeMandateHash, hcanon]
  exact hne (mandateHash_inj_base m₀ m' h₀ h' hhash)

/-- C2: verifyRole fails with the no-signatures error when no signatures
object is attached at all; fails with the role-specific signature-missing
error when the named role signature is absent, whatever the other role
holds; and on a mandate whose non-signature content was mutated after
signing (the attached signature embeds the hash of the original document),
it fails with the hash-mismatch error — the comparison happens on
lowercased hashes before any recovery is attempted, so the result is never
the signature-invalid error. -/
theorem C2_verifyRole_failures :
    (∀ (m : Mandate) (role : Role) (d : Option TypedDataDomain), m.signatures = none →
       Mandate.verifyRole m role d = .error .noSignatures) ∧
    (∀ (m : Mandate) (sigs : MandateSignatures) (role : Role) (d : Option TypedDataDomain),
       m.signatures = some sigs → roleSig sigs role = none →
       Mandate.verifyRole m role d = .error (.sigMissing role)) ∧
    (∀ (m₀ m' : Mandate) (sigs : MandateSignatures) (sig : Signature) (role : Role)
       (d : Option TypedDataDomain),
       sig.mandateHash = Mandate.mandateHash m₀ →
       m'.signatures = some sigs → roleSig sigs role = some sig →
       sortJson m₀.core = m₀.core → sortJson m'.core = m'.core →
       stripSig m' ≠ stripSig m₀ →
       Mandate.verifyRole m' role d = .error (.hashMismatch role)) := by
  refine ⟨?_, ?_, ?_⟩
  · intro m role d h
    simp [Mandate.verifyRole, h]
  · intro m sigs role d hm hrole
    simp [Mandate.verifyRole, hm, hrole]
  · intro m₀ m' sigs sig role d hsig hm hrole h₀ h' hne
    have hcond : toLowerStr sig.mandateHash ≠ toLowerStr (Mandate.mandateHash m') := by
      rw [hsig]
      exact hash_lower_ne m₀ m' h₀ h' (fun he => hne he.symm)
    simp only [Mandate.verifyRole, hm, hrole]
    rw [if_pos hcond]

theorem attachSig_toCanonical (m : Mandate) (role : Role) (sig : Signature) :
    Mandate.toCanonicalString (Mandate.attachSig m role sig) = Mandate.toCanonicalString m := by
  cases role <;> rfl

theorem attachSig_roleCaip (m : Mandate) (role role₂ : Role) (sig : Signature) :
    roleCaip (Mandate.attachSig m role sig) role₂ = roleCaip m role₂ := by
  cases role <;> cases role₂ <;> rfl

theorem sign_ok_sigbytes (m : Mandate) (role : Role) (w : HDNodeWallet) (alg : SigAlg)
    (d : Option TypedDataDomain) (sig : Signature) (m' : Mandate)
    (h : Mandate.sign m role w alg d = (.ok sig, m')) :
    (alg = .eip191 → sig.signature = signMessage w (Mandate.toCanonicalString m)) ∧
    (alg = .eip712 → ∃ dd : TypedDataDomain, d = some dd ∧ dd.chainId.isSome = true ∧
       sig.signature = signTypedDataMandate w dd (Mandate.mandateHash m)) := by
  cases alg with
  | eip191 =>
    simp only [Mandate.sign, Prod.mk.injEq] at h
    obtain ⟨h1, _⟩ := h
    injection h1 with h1
    subst h1
    exact ⟨fun _ => rfl, fun hcontra => by cases hcontra⟩
  | eip712 =>
    cases d with
    | none => simp [Mandate.sign] at h
    | some dd =>
      cases hdd : dd.chainId with
      | none => simp [Mandate.sign, hdd] at h
      | some cid =>
        simp only [Mandate.sign, hdd, Prod.mk.injEq] at h
        obtain ⟨h1, _⟩ := h
        injection h1 with h1
        subst h1
        constructor
        · intro hcontra
          cases hcontra
        · intro _
          refine ⟨dd, rfl, ?_, rfl⟩
          simp [hdd]

theorem sign_then_verifyRole (m : Mandate) (role : Role) (w : HDNodeWallet) (alg : SigAlg)
    (d : Option TypedDataDomain) (sig : Signature) (m' : Mandate) (part : String)
    (hsign : Mandate.sign m role w alg d = (.ok sig, m'))
    (hpart : (jsSplit (roleCaip m role) ':').get? 2 = some part)
    (haddr : toLowerStr part = toLowerStr w.address) :
    Mandate.verifyRole m' role d =
      .ok { recovered := w.address, recomputedHash := Mandate.mandateHash m, alg := alg } := by
  obtain ⟨hm', hmh, halg⟩ := sign_ok_shape m role w alg d sig m' hsign
  obtain ⟨hbytes191, hbytes712⟩ := sign_ok_sigbytes m role w alg d sig m' hsign
  subst hm'
  obtain ⟨sigs, hsigs, hroleSig, _⟩ := attachSig_effect m role sig
  have hhash' : Mandate.mandateHash (Mandate.attachSig m role sig) = Mandate.mandateHash m :=
    attachSig_mandateHash m role sig
  have hcond : ¬ (toLowerStr sig.mandateHash ≠
      toLowerStr (Mandate.mandateHash (Mandate.attachSig m role sig))) := by
    rw [hhash', hmh]
    simp
  cases alg with
  | eip191 =>
    have hb := hbytes191 rfl
    simp only [Mandate.verifyRole, hsigs, hroleSig]
    rw [if_neg hcond]
    simp only [halg, hb, attachSig_toCanonical, signMessage, verifyMessage, if_pos rfl,
      attachSig_roleCaip, hpart]
    rw [if_neg (by simp [← haddr])]
    simp [hhash', hmh]
  | eip712 =>
    obtain ⟨dd, hd, hcid, hb⟩ := hbytes712 rfl
    subst hd
    obtain ⟨cid, hcid2⟩ := Option.isSome_iff_exists.mp hcid
    have hpart2 : (jsSplit (roleCaip m role) ':')[2]? = some part := by
      rw [← List.get?_eq_getElem?]
      exact hpart
    simp only [Mandate.verifyRole, hsigs, hroleSig]
    rw [if_neg hcond]
    simp [halg, hb, hcid2, signTypedDataMandate, verifyTypedDataMandate,
      attachSig_roleCaip, hpart2, hmh, hhash', ← haddr]

/-- C9: when requireClient (or requireServer) is supplied and non-empty,
the plain address derived from the chain-qualified identifier is compared
after lowercasing both sides and a mismatch fails with the
identity-mismatch error for that side even though both role signatures
verified; when the option is JavaScript-falsy (absent, or supplied as the
empty string) the corresponding check is skipped entirely — the result is
never that side identity-mismatch error.  addrFromCaip10 is modelled from
the spec (its source is outside the snapshot). -/
theorem C9_thirdParty_identity (mj : Mandate) (opts : VerifyOptions) (genId nowIso : String)
    (sysNow : Int) (m : Mandate) (sigs : VerifyAllResult)
    (hfrom : Mandate.fromObject mj genId nowIso = .ok m)
    (hver : Mandate.verifyAll m opts.eip712ClientDomain opts.eip712ServerDomain = .ok sigs) :
    (∀ req, opts.requireClient = some req → req.isEmpty = false →
       toLowerStr (addrFromCaip10 m.client) ≠ toLowerStr req →
       verifyMandateAsThirdParty mj opts genId nowIso sysNow =
         .error (.clientMismatch req (toLowerStr (addrFromCaip10 m.client)))) ∧
    (∀ req, opts.requireServer = some req → req.isEmpty = false →
       (∀ reqc, opts.requireClient = some reqc →
          reqc.isEmpty = true ∨ toLowerStr (addrFromCaip10 m.client) = toLowerStr reqc) →
       toLowerStr (addrFromCaip10 m.server) ≠ toLowerStr req →
       verifyMandateAsThirdParty mj opts genId nowIso sysNow =
         .error (.serverMismatch req (toLowerStr (addrFromCaip10 m.server)))) ∧
    (strFalsy opts.requireClient = true →
       ∀ r g, verifyMandateAsThirdParty mj opts genId nowIso sysNow ≠
         .error (.clientMismatch r g)) ∧
    (strFalsy opts.requireServer = true →
       ∀ r g, verifyMandateAsThirdParty mj opts genId nowIso sysNow ≠
         .error (.serverMismatch r g)) := by
  refine ⟨?_, ?_, ?_, ?_⟩
  · intro req hreq hemp hne
    simp [verifyMandateAsThirdParty, hfrom, hver, Mandate.toJSON, deepClone, hreq, hemp, hne]
  · intro req hreq hemp hcl hne
    cases hrc : opts.requireClient with
    | none =>
      simp [verifyMandateAsThirdParty, hfrom, hver, Mandate.toJSON, deepClone, hreq, hemp, hne,
        hrc]
    | some reqc =>
      rcases hcl reqc hrc with hce | hcm
      · simp [verifyMandateAsThirdParty, hfrom, hver, Mandate.toJSON, deepClone, hreq, hemp, hne,
          hrc, hce]
      · simp [verifyMandateAsThirdParty, hfrom, hver, Mandate.toJSON, deepClone, hreq, hemp, hne,
          hrc, hcm]
  · intro hfalsy r g
    cases hoc : opts.requireClient with
    | none =>
      simp only [verifyMandateAsThirdParty, hfrom, hver, Mandate.toJSON, deepClone, hoc]
      split
      · rename_i e heq
        split at heq <;> (try split at heq) <;>
          (first
            | (injection heq with hinj; subst hinj; simp)
            | (injection heq)
            | simp_all)
      · split
        · simp
        · split
          · rename_i e heq
            split at heq
            · split at heq <;> (try split at heq) <;> (try split at heq) <;>
                (first
                  | (subst e; simp)
                  | (injection heq with hinj; subst hinj; simp)
                  | (injection heq)
                  | simp_all)
            · simp_all
          · simp
    | some req =>
      rw [hoc] at hfalsy
      have hemp : req.isEmpty = true := by simpa [strFalsy] using hfalsy
      have hcond : ¬ (req.isEmpty = false ∧
          toLowerStr (addrFromCaip10 m.client) ≠ toLowerStr req) := by simp [hemp]
      simp only [verifyMandateAsThirdParty, hfrom, hver, Mandate.toJSON, deepClone, hoc]
      split
      · rename_i e heq
        split at heq
        · rename_i hcc
          exact absurd hcc hcond
        · injection heq
      · split
        · rename_i e heq
          split at heq <;> (try split at heq) <;>
            (first
              | (injection heq with hinj; subst hinj; simp)
              | (injection heq)
              | simp_all)
        · split
          · simp
          · split
            · rename_i e heq
              split at heq
              · split at heq <;> (try split at heq) <;> (try split at heq) <;>
                  (first
                    | (subst e; simp)
                    | (injection heq with hinj; subst hinj; simp)
                    | (injection heq)
                    | simp_all)
              · simp_all
            · simp
  · intro hfalsy r g
    simp only [verifyMandateAsThirdParty, hfrom, hver, Mandate.toJSON, deepClone]
    split
    · rename_i e heq
      split at heq <;> (try split at heq) <;>
        (first
          | (injection heq with hinj; subst hinj; simp)
          | (injection heq)
          | simp_all)
    · cases hos : opts.requireServer with
      | none =>
        simp only [hos]
        split
        · simp
        · split
          · rename_i e heq
            split at heq
            · split at heq <;> (try split at heq) <;> (try split at heq) <;>
                (first
                  | (subst e; simp)
                  | (injection heq with hinj; subst hinj; simp)
                  | (injection heq)
                  | simp_all)
            · simp_all
          · simp
      | some req =>
        rw [hos] at hfalsy
        have hemp : req.isEmpty = true := by simpa [strFalsy] using hfalsy
        have hcond : ¬ (req.isEmpty = false ∧
            toLowerStr (addrFromCaip10 m.server) ≠ toLowerStr req) := by simp [hemp]
        simp only [hos]
        split
        · rename_i e heq
          split at heq
          · rename_i hcc
            exact absurd hcc hcond
          · injection heq
        · split
          · simp
          · split
            · rename_i e heq
              split at heq
              · split at heq <;> (try split at heq) <;> (try split at heq) <;>
                  (first
                    | (subst e; simp)
                    | (injection heq with hinj; subst hinj; simp)
                    | (injection heq)
                    | simp_all)
              · simp_all
            · simp

/-- C3: for every role and algorithm (eip191, or eip712 whose successful
sign requires a domain with a numeric chainId), sign followed by verifyRole
with the same domain on the unmodified mandate succeeds and returns the
signer wallet address as recovered, provided the role chain-qualified
identifier has an address component equal to the wallet address up to
case. -/
theorem C3_sign_verify (m : Mandate) (role : Role) (w : HDNodeWallet) (alg : SigAlg)
    (d : Option TypedDataDomain) (sig : Signature) (m' : Mandate) (part : String)
    (hsign : Mandate.sign m role w alg d = (.ok sig, m'))
    (hpart : (jsSplit (roleCaip m role) ':').get? 2 = some part)
    (haddr : toLowerStr part = toLowerStr w.address) :
    Mandate.verifyRole m' role d =
      .ok { recovered := w.address, recomputedHash := Mandate.mandateHash m, alg := alg } :=
  sign_then_verifyRole m role w alg d sig m' part hsign hpart haddr

theorem verifyRole_after_attach_other (m : Mandate) (sigs : MandateSignatures)
    (role other : Role) (hro : role ≠ other) (hm : m.signatures = some sigs)
    (sig : Signature) (d : Option TypedDataDomain) :
    Mandate.verifyRole (Mandate.attachSig m other sig) role d =
      Mandate.verifyRole m role d := by
  cases role with
  | client =>
    cases other with
    | client => exact absurd rfl hro
    | server =>
      have h1 : (Mandate.attachSig m .server sig).signatures =
          some { sigs with serverSig := some sig } := by
        simp [Mandate.attachSig, hm]
      simp only [Mandate.verifyRole, h1, hm, roleSig, attachSig_mandateHash,
        attachSig_toCanonical, attachSig_roleCaip]
  | server =>
    cases other with
    | client =>
      have h1 : (Mandate.attachSig m .client sig).signatures =
          some { sigs with clientSig := some sig } := by
        simp [Mandate.attachSig, hm]
      simp only [Mandate.verifyRole, h1, hm, roleSig, attachSig_mandateHash,
        attachSig_toCanonical, attachSig_roleCaip]
    | server => exact absurd rfl hro

/-- Witness for C2 at a concrete signed mandate and a tampered copy. -/
theorem C2_witness :
    Mandate.verifyRole mBase .client none = .error .noSignatures ∧
    Mandate.verifyRole m1 .server none = .error (.sigMissing .server) ∧
    Mandate.verifyRole { m1 with intent := r"tampered" } .client none =
      .error (.hashMismatch .client) := by
  refine ⟨C2_verifyRole_failures.1 mBase .client none rfl,
    C2_verifyRole_failures.2.1 m1 { clientSig := some sigClient, serverSig := none }
      .server none rfl rfl,
    C2_verifyRole_failures.2.2 mBase { m1 with intent := r"tampered" }
      { clientSig := some sigClient, serverSig := none } sigClient .client none rfl rfl rfl
      (by simp [mBase, sortJson, sortMembers, sortFields])
      (by simp [m1, mBase, Mandate.attachSig, sortJson, sortMembers, sortFields])
      ?_⟩
  intro h
  have h2 := congrArg Mandate.intent h
  simp only [stripSig, m1, mBase, Mandate.attachSig] at h2
  exact absurd h2 (by decide)

/-- Witness for C3: eip191 sign then verify on a concrete mandate. -/
theorem C3_witness :
    Mandate.verifyRole m1 .client none =
      .ok { recovered := wClient.address, recomputedHash := Mandate.mandateHash mBase
            alg := SigAlg.eip191 } :=
  C3_sign_verify mBase .client wClient .eip191 none sigClient m1 (r"0xAAA") rfl (by decide)
    (by decide)

/-- Witness for C4 at a concrete mandate. -/
theorem C4_witness :
    Mandate.fromObject (Mandate.toJSON mBase) (r"G") (r"N") = .ok mBase ∧
    ∀ m' : Mandate, Mandate.fromObject (Mandate.toJSON mBase) (r"G") (r"N") = .ok m' →
      Mandate.toJSON m' = Mandate.toJSON mBase :=
  C4_roundtrip mBase (r"G") (r"N") (by decide) (by decide) (by decide)

/-- Witness for C5: two concrete client signs. -/
theorem C5_witness :
    ∃ sigs, (Mandate.attachSig m1 .client sigClient2).signatures = some sigs ∧
      roleSig sigs .client = some sigClient2 ∧
      roleSig sigs (otherRole .client) =
        roleSig (mBase.signatures.getD {}) (otherRole .client) :=
  C5_resign_overwrites mBase .client wClient wServer .eip191 .eip191 none none
    sigClient m1 sigClient2 (Mandate.attachSig m1 .client sigClient2) rfl rfl

/-- Witness for C6 (amended): empty init fails, malformed identifiers pass. -/
theorem C6_witness :
    Mandate.create {} (r"G") (r"N") =
      .error (.constructionError (r"client and server (CAIP-10) are required")) ∧
    ∃ m : Mandate,
      Mandate.create
        { client := some (r"bogus-identifier")
          server := some (r"eip155:1:0xBBB")
          deadline := some (r"2099-01-01T00:00:00Z") } (r"G") (r"N") = .ok m ∧
      m.client = r"bogus-identifier" ∧ m.server = r"eip155:1:0xBBB" ∧
      m.deadline = r"2099-01-01T00:00:00Z" ∧
      m.mandateId = (Option.getD none (r"G") : String) ∧
      m.createdAt = (Option.getD none (r"N") : String) ∧
      m.intent = (Option.getD none (String.mk []) : String) ∧
      m.core = (Option.getD none (Json.obj []) : Json) ∧
      m.signatures = (none : Option MandateSignatures) :=
  ⟨(C6_amended {} (r"G") (r"N")).1 (by decide),
   (C6_amended _ (r"G") (r"N")).2.2 (r"bogus-identifier") (r"eip155:1:0xBBB")
     (r"2099-01-01T00:00:00Z") rfl rfl rfl (by decide) (by decide) (by decide)⟩

/-- Witness for C7 on a concrete one-entry registry. -/
theorem C7_witness :
    (Mandate.registerPrimitive [(r"swap@1", swapDef)] swapDef2 =
       (.error (.duplicateRegistration (r"swap@1")), [(r"swap@1", swapDef)]) ∧
     Mandate.getPrimitive [(r"swap@1", swapDef)] (r"swap@1") = .ok swapDef) ∧
    Mandate.getPrimitive [] (r"missing@1") = .error (.unknownPrimitive (r"missing@1")) ∧
    (Mandate.hasPrimitive [(r"swap@1", swapDef)] (r"swap@1") = true ↔
       ∃ d, List.lookup (r"swap@1") [((r"swap@1" : String), swapDef)] = some d) :=
  ⟨C7_registry.1 [] swapDef [(r"swap@1", swapDef)] rfl swapDef2 rfl,
   C7_registry.2.1 [] (r"missing@1") rfl,
   C7_registry.2.2 [(r"swap@1", swapDef)] (r"swap@1")⟩

/-- Witness for C8 on a concrete registry and payloads. -/
theorem C8_witness :
    Mandate.setCore [] mBase (r"swap@1") none = (.error (.unknownPrimitive (r"swap@1")), mBase) ∧
    Mandate.setCore [(r"swap@1", swapDef)] mBase (r"swap@1") none =
      (.error (.payloadValidation (r"missing payload")), mBase) ∧
    Mandate.setCore [(r"swap@1", swapDef)] mBase (r"swap@1") (some (Json.str (r"p"))) =
      (.ok (), { mBase with
        core := Json.obj [(r"kind", Json.str (r"swap@1")), (r"payload", Json.str (r"p"))] }) :=
  ⟨(C8_setCore [] mBase (r"swap@1") none).1 rfl,
   (C8_setCore [(r"swap@1", swapDef)] mBase (r"swap@1") none).2.1 swapDef
     (r"missing payload") rfl rfl,
   (C8_setCore [(r"swap@1", swapDef)] mBase (r"swap@1") (some (Json.str (r"p")))).2.2 swapDef
     (Json.str (r"p")) rfl rfl⟩

/-- Witness for C10 at a concrete construction without core. -/
theorem C10_witness :
    mBase.core = Json.obj [] ∧
    (∀ kind, Mandate.is mBase kind = false) ∧
    (∀ (reg : Registry) (kind : String),
       Mandate.coreAsKind reg mBase kind = .error (.coreKindMismatch kind)) ∧
    (∀ (schema : PrimitiveValidator) (k : String),
       Mandate.coreAs mBase schema (some k) = .error (.coreKindMismatch k)) ∧
    (∀ schema : PrimitiveValidator,
       Mandate.coreAs mBase schema none =
         (match schema.parse none with
          | .ok t => .ok t
          | .error msg => .error (.payloadValidation msg))) :=
  C10_default_core
    { client := some (r"eip155:1:0xAAA")
      server := some (r"eip155:1:0xBBB")
      deadline := some (r"2099-01-01T00:00:00Z")
      mandateId := some (r"01HZX")
      version := some (r"1.0.0")
      createdAt := some (r"2024-01-01T00:00:00Z")
      intent := some (r"swap usdc for eth") } (r"G") (r"N") mBase rfl rfl

/-- Witness for C9: dual-signed concrete mandate, mismatching requireClient. -/
theorem C9_witness :
    verifyMandateAsThirdParty m2 optsReqClient (r"G") (r"N") 0 =
      .error (.clientMismatch (r"0xBAD") (toLowerStr (addrFromCaip10 m2.client))) := by
  have hfrom : Mandate.fromObject m2 (r"G") (r"N") = .ok m2 := rfl
  have hvc' : Mandate.verifyRole m1 .client none =
      .ok { recovered := wClient.address, recomputedHash := Mandate.mandateHash mBase
            alg := SigAlg.eip191 } :=
    sign_then_verifyRole mBase .client wClient .eip191 none sigClient m1 (r"0xAAA") rfl
      (by decide) (by decide)
  have hvc : Mandate.verifyRole m2 .client none = Mandate.verifyRole m1 .client none :=
    verifyRole_after_attach_other m1 { clientSig := some sigClient, serverSig := none }
      .client .server (by decide) rfl sigServer none
  have hvs : Mandate.verifyRole m2 .server none =
      .ok { recovered := wServer.address, recomputedHash := Mandate.mandateHash m1
            alg := SigAlg.eip191 } :=
    sign_then_verifyRole m1 .server wServer .eip191 none sigServer m2 (r"0xBBB") rfl
      (by decide) (by decide)
  have hver : Mandate.verifyAll m2 none none =
      .ok { client := { recovered := wClient.address
                        recomputedHash := Mandate.mandateHash mBase
                        alg := SigAlg.eip191 }
            server := { recovered := wServer.address
                        recomputedHash := Mandate.mandateHash m1
                        alg := SigAlg.eip191 } } := by
    simp only [Mandate.verifyAll, hvc, hvc', hvs]
  exact (C9_thirdParty_identity m2 optsReqClient (r"G") (r"N") 0 m2 _ hfrom hver).1
    (r"0xBAD") rfl (by decide) (by decide)
